import Mathlib

/-!
Shallow embedding of the Identity Session & Real-Time Presence subsystem of
the backend-horohouse repository (NestJS/TypeScript), together with proofs of
the specification's claims about it.

Sources embedded:
  * `src/auth/auth.service.ts` — `AuthService.refreshToken`, `validateUser`,
    `logout`, `getUserSessions`, `terminateSession`, `generateTokens`.
  * `src/notifications/notifications.gateway.ts` — the presence registry kept
    in `userSockets : Map<string, Set<string>>` / `socketToUser : Map<string,
    string>` and the operations `handleConnection` (registration part),
    `handleDisconnect`, `isUserConnected`, `getUserConnectionCount`,
    `getConnectedUserIds`.
  * The `JwtAuthGuard.handleRequest` guard (public-optional vs protected).
  * The user schema's session list (`user.schema.ts`).

Conventions: JavaScript `Date` values are modelled as natural-number
timestamps in milliseconds; `jwtService.sign/verify` is modelled by a
`SignedToken` carrying the payload it verifies to, the secret kind it was
signed with and its own expiry; the Mongoose document store is modelled by a
lookup function `String → Option User`, and each operation returns the
persisted state of the affected user alongside its outcome (saves applied in
program order, so state written before a throw survives the throw, exactly as
`await user.save()` before a `throw` does).
-/

namespace HoroHouse

/-- One entry of the `sessions` array embedded in the user document
(`UserSession` in `auth.service.ts` / the session subschema in
`user.schema.ts`). -/
structure Session where
  id : String
  refreshToken : String
  device : String
  ipAddress : String
  userAgent : String
  location : String
  isActive : Bool
  lastActive : Nat
  createdAt : Nat
  expiresAt : Nat
deriving Repr, DecidableEq

/-- The slice of the user document that the session subsystem reads and
writes: its id (`_id` as a string), role, active flag and session list. -/
structure User where
  uid : String
  role : String
  isActive : Bool
  sessions : List Session
deriving Repr, DecidableEq

/-- The signed JWT claims (`JwtPayload`): subject id, role and the session id
the token is bound to.  `sessionId` is optional because tokens minted before
session tracking carry none (the code guards with `payload.sessionId`). -/
structure JwtPayload where
  sub : String
  role : String
  sessionId : Option String
deriving Repr, DecidableEq

/-- Which secret a token was signed with (access secret vs `JWT_REFRESH_SECRET`). -/
inductive TokenKind where
  | access
  | refresh
deriving Repr, DecidableEq

/-- A signed token: the serialized string (`refreshToken` strings are compared
by value in the session list), the payload recovered on verification, the
secret kind, and the `exp` claim used by `jwtService.verify`. -/
structure SignedToken where
  value : String
  payload : JwtPayload
  kind : TokenKind
  expAt : Nat
deriving Repr, DecidableEq

/-- `jwtService.verify(token, { secret })`: succeeds (returning the payload)
only when the token was signed with the expected secret and is not expired;
any failure is thrown as an error, modelled by `none`. -/
def verifyToken (tok : SignedToken) (kind : TokenKind) (now : Nat) : Option JwtPayload :=
  if tok.kind = kind ∧ now < tok.expAt then some tok.payload else none

/-- Failures surfaced by the auth service: `UnauthorizedException` and
`NotFoundException`, each carrying its message. -/
inductive AuthError where
  | unauthorized (msg : String)
  | notFound (msg : String)
deriving Repr, DecidableEq

/-- JavaScript truthiness of the optional `sessionId` string (an absent field
and the empty string are both falsy). -/
def jsTruthy : Option String → Bool
  | none => false
  | some s => s ≠ ""

/-- A one-user document store: `findById` finds the user exactly when the
queried id is the user's id. -/
def dbOf (u : User) : String → Option User :=
  fun i => if i = u.uid then some u else none

/-- `AuthService.validateUser` (auth.service.ts:513-526): load the user by
`payload.sub`, fail `Unauthorized` if missing or inactive; find the session
with `s.id === payload.sessionId && s.isActive`; fail `Unauthorized` if
absent or past `expiresAt`; otherwise return the user. -/
def validateUser (db : String → Option User) (payload : JwtPayload) (now : Nat) :
    Except AuthError User :=
  match db payload.sub with
  | none => .error (.unauthorized "User not found or inactive")
  | some user =>
    if user.isActive = false then .error (.unauthorized "User not found or inactive")
    else
      match user.sessions.find? (fun s => some s.id == payload.sessionId && s.isActive) with
      | none => .error (.unauthorized "Session invalid or expired")
      | some session =>
        if session.expiresAt < now then .error (.unauthorized "Session invalid or expired")
        else .ok user

/-- `AuthService.logout` (auth.service.ts:531-552): remove the named session
(or all sessions when none is named) and save.  The surrounding `try/catch`
logs and swallows every error, so logout never fails; the returned value is
the persisted user state (`none` when the user was not found, in which case
nothing was written). -/
def logout (db : String → Option User) (userId : String) (sessionId : Option String) :
    Option User :=
  match db userId with
  | none => none
  | some user =>
    match sessionId with
    | some sid => some { user with sessions := user.sessions.filter (fun s => s.id ≠ sid) }
    | none => some { user with sessions := [] }

/-- A session as returned by `getUserSessions`: the spread of the stored
session with `refreshToken: undefined`. -/
structure SessionView where
  id : String
  refreshToken : Option String
  device : String
  ipAddress : String
  userAgent : String
  location : String
  isActive : Bool
  lastActive : Nat
  createdAt : Nat
  expiresAt : Nat
deriving Repr, DecidableEq

/-- The `{...session, refreshToken: undefined}` projection applied to each
session in `getUserSessions` (auth.service.ts:653-656). -/
def Session.toView (s : Session) : SessionView :=
  { id := s.id, refreshToken := none, device := s.device, ipAddress := s.ipAddress,
    userAgent := s.userAgent, location := s.location, isActive := s.isActive,
    lastActive := s.lastActive, createdAt := s.createdAt, expiresAt := s.expiresAt }

/-- `AuthService.getUserSessions` (auth.service.ts:630-661): load the user,
fail `NotFound` if absent; keep only sessions with `isActive &&
expiresAt > now`, saving the pruned list when it differs in length; return
the stored sessions with `refreshToken: undefined`, alongside the persisted
user state. -/
def getUserSessions (db : String → Option User) (userId : String) (now : Nat) :
    Except AuthError (List SessionView) × Option User :=
  match db userId with
  | none => (.error (.notFound "User not found"), none)
  | some userDoc =>
    let activeSessions := userDoc.sessions.filter (fun s => s.isActive && now < s.expiresAt)
    let userDoc' :=
      if activeSessions.length ≠ userDoc.sessions.length then
        { userDoc with sessions := activeSessions }
      else userDoc
    (.ok (userDoc'.sessions.map Session.toView), some userDoc')

/-- `AuthService.terminateSession` (auth.service.ts:666-692): load the user,
fail `NotFound` if absent; filter out the named session; when nothing was
removed throw `NotFound('Session not found')` before saving (persisted list
unchanged); otherwise save and succeed. -/
def terminateSession (db : String → Option User) (userId : String) (sessionId : String) :
    Except AuthError String × Option User :=
  match db userId with
  | none => (.error (.notFound "User not found"), none)
  | some userDoc =>
    let remaining := userDoc.sessions.filter (fun s => s.id ≠ sessionId)
    if remaining.length = userDoc.sessions.length then
      (.error (.notFound "Session not found"), some userDoc)
    else
      (.ok "Session terminated successfully", some { userDoc with sessions := remaining })

/-- The request metadata `generateTokens`/`refreshToken` read: `ip` is the
first truthy value of the `req.ip`/`remoteAddress`/forwarded-header chain in
`getClientIp`, `userAgent` is `req.headers['user-agent']`, and `device` is
`req.body.deviceInfo.device`.  Absent or empty (falsy) values are `none`/"". -/
structure ReqInfo where
  ip : Option String
  userAgent : Option String
  device : Option String
deriving Repr, DecidableEq

/-- `AuthService.getClientIp` (auth.service.ts:904-916): the request's client
ip, or the string `Unknown` when the request or every source is falsy. -/
def getClientIp (req : Option ReqInfo) : String :=
  match req with
  | none => "Unknown"
  | some r =>
    match r.ip with
    | some s => if s ≠ "" then s else "Unknown"
    | none => "Unknown"

/-- The `req?.headers?.['user-agent'] || 'Unknown'` reads in `generateTokens`
and `refreshToken`. -/
def reqUserAgent (req : Option ReqInfo) : String :=
  match req with
  | none => "Unknown"
  | some r =>
    match r.userAgent with
    | some s => if s ≠ "" then s else "Unknown"
    | none => "Unknown"

/-- `AuthService.parseDeviceInfo` (auth.service.ts:921-947): prefer the
client-supplied device string when truthy, otherwise derive a
`browser on os` display string from the lowercased user agent. -/
def parseDeviceInfo (userAgent : String) (device : Option String) : String :=
  let fromUa :=
    let ua := userAgent.toLower
    let browser :=
      if ua.containsSubstr "chrome" then "Chrome"
      else if ua.containsSubstr "firefox" then "Firefox"
      else if ua.containsSubstr "safari" then "Safari"
      else if ua.containsSubstr "edge" then "Edge"
      else if ua.containsSubstr "opera" then "Opera"
      else "Unknown Browser"
    let os :=
      if ua.containsSubstr "windows" then "Windows"
      else if ua.containsSubstr "macintosh" || ua.containsSubstr "mac os x" then "macOS"
      else if ua.containsSubstr "linux" then "Linux"
      else if ua.containsSubstr "android" then "Android"
      else if ua.containsSubstr "iphone" || ua.containsSubstr "ipad" then "iOS"
      else "Unknown OS"
    browser ++ " on " ++ os
  match device with
  | some d => if d ≠ "" then d else fromUa
  | none => fromUa

/-- `AuthService.getLocationFromIp` (auth.service.ts:952-965). -/
def getLocationFromIp (ip : String) : String :=
  if ip = "Unknown" || ip.startsWith "127." || ip.startsWith "192.168." then "Local Network"
  else "Unknown Location"

/-- The configured token lifetimes in milliseconds: `refreshLifetimeMs` is
`parseTokenExpiration(JWT_REFRESH_EXPIRATION)` and `accessLifetimeMs` the
expiry configured for the access secret in the JWT module. -/
structure AuthConfig where
  refreshLifetimeMs : Nat
  accessLifetimeMs : Nat
deriving Repr, DecidableEq

/-- The fresh values the runtime draws during one `generateTokens` call: the
`crypto.randomUUID()` session id and the serialized strings produced by the
two `jwtService.signAsync` calls. -/
structure Fresh where
  sessionId : String
  accessValue : String
  refreshValue : String
deriving Repr, DecidableEq

/-- The ordering used by the session-ceiling sort
`(a, b) => b.lastActive.getTime() - a.lastActive.getTime()`: `a` sorts no
later than `b` when `b` is not more recently active. -/
def moreRecentlyActive (a b : Session) : Prop :=
  b.lastActive ≤ a.lastActive

instance : DecidableRel moreRecentlyActive :=
  fun a b => inferInstanceAs (Decidable (b.lastActive ≤ a.lastActive))

instance : IsTotal Session moreRecentlyActive :=
  ⟨fun a b => Nat.le_total b.lastActive a.lastActive⟩

instance : IsTrans Session moreRecentlyActive :=
  ⟨fun _ _ _ hab hbc => Nat.le_trans hbc hab⟩

/-- The `newSession` record built inside `generateTokens`
(auth.service.ts:860-871). -/
def newSessionOf (cfg : AuthConfig) (req : Option ReqInfo) (fresh : Fresh) (now : Nat) :
    Session :=
  { id := fresh.sessionId, refreshToken := fresh.refreshValue,
    device := parseDeviceInfo (reqUserAgent req) (req.bind ReqInfo.device),
    ipAddress := getClientIp req,
    userAgent := reqUserAgent req,
    location := getLocationFromIp (getClientIp req),
    isActive := true, lastActive := now, createdAt := now,
    expiresAt := now + cfg.refreshLifetimeMs }

/-- `AuthService.generateTokens` (auth.service.ts:824-899): sign an access and
a refresh token over one payload whose `sessionId` is the existing session id
or a fresh UUID.  Without an existing id, append a new session, drop expired
sessions, and when more than 10 remain keep the 10 most recently active of
the stable sort by descending `lastActive` (JavaScript `Array.sort` is
stable, and a stable sort's output is unique, so `List.insertionSort` of the
same total preorder produces the identical list).  With an existing id,
overwrite that session's stored token and `lastActive` in place. -/
def generateTokens (cfg : AuthConfig) (user : User) (req : Option ReqInfo)
    (existingSessionId : Option String) (fresh : Fresh) (now : Nat) :
    (SignedToken × SignedToken) × User :=
  let sessionId := existingSessionId.getD fresh.sessionId
  let payload : JwtPayload := { sub := user.uid, role := user.role, sessionId := some sessionId }
  let accessToken : SignedToken :=
    { value := fresh.accessValue, payload := payload, kind := .access,
      expAt := now + cfg.accessLifetimeMs }
  let refreshTok : SignedToken :=
    { value := fresh.refreshValue, payload := payload, kind := .refresh,
      expAt := now + cfg.refreshLifetimeMs }
  let user' :=
    match existingSessionId with
    | none =>
      let sessions1 := user.sessions ++ [newSessionOf cfg req fresh now]
      let sessions2 := sessions1.filter (fun s => s.expiresAt > now)
      let sessions3 :=
        if sessions2.length > 10 then (sessions2.insertionSort moreRecentlyActive).take 10
        else sessions2
      { user with sessions := sessions3 }
    | some sid =>
      match user.sessions.findIdx? (fun (s : Session) => s.id == sid) with
      | none => user
      | some i =>
        match user.sessions[i]? with
        | none => user
        | some s =>
          let s' := { s with refreshToken := fresh.refreshValue, lastActive := now }
          { user with sessions := user.sessions.set i s' }
  ((accessToken, refreshTok), user')

/-- The body of `AuthService.refreshToken` (auth.service.ts:451-503) before
the surrounding `catch`: verify the token against the refresh secret, load
the user, locate the session by the payload's `sessionId` (when truthy) among
active sessions, falling back to a scan by stored refresh-token value; fail
if absent; if the session passed `expiresAt`, remove it, save, and fail;
otherwise update the session's activity metadata in place, save, and rotate
tokens via `generateTokens` with the same session id.  The second component
is the user's persisted state after the call. -/
def refreshTokenAttempt (cfg : AuthConfig) (db : String → Option User) (tok : SignedToken)
    (req : Option ReqInfo) (fresh : Fresh) (now : Nat) :
    Except AuthError ((SignedToken × SignedToken) × User) × Option User :=
  match verifyToken tok .refresh now with
  | none => (.error (.unauthorized "jwt verification failed"), none)
  | some payload =>
    match db payload.sub with
    | none => (.error (.unauthorized "User not found or inactive"), none)
    | some user =>
      if user.isActive = false then
        (.error (.unauthorized "User not found or inactive"), some user)
      else
        let idxById :=
          if jsTruthy payload.sessionId then
            user.sessions.findIdx? (fun (s : Session) => some s.id == payload.sessionId && s.isActive)
          else none
        let idx :=
          match idxById with
          | some i => some i
          | none => user.sessions.findIdx? (fun (s : Session) => s.refreshToken == tok.value && s.isActive)
        match idx with
        | none => (.error (.unauthorized "Invalid refresh token - session not found"), some user)
        | some i =>
          match user.sessions[i]? with
          | none => (.error (.unauthorized "Invalid refresh token - session not found"), some user)
          | some session =>
            if session.expiresAt < now then
              let user' :=
                { user with sessions := user.sessions.filter (fun s => s.id ≠ session.id) }
              (.error (.unauthorized "Session expired"), some user')
            else
              let session' :=
                { session with lastActive := now,
                               ipAddress := if req.isSome then getClientIp req else session.ipAddress,
                               userAgent := if req.isSome then reqUserAgent req else session.userAgent }
              let user1 := { user with sessions := user.sessions.set i session' }
              let result := generateTokens cfg user1 req (some session.id) fresh now
              (.ok (result.1, result.2), some result.2)

/-- `AuthService.refreshToken` including its `catch` clause: every failure is
re-thrown as `UnauthorizedException('Invalid refresh token')`, but state
already saved before the throw stays persisted. -/
def refreshToken (cfg : AuthConfig) (db : String → Option User) (tok : SignedToken)
    (req : Option ReqInfo) (fresh : Fresh) (now : Nat) :
    Except AuthError ((SignedToken × SignedToken) × User) × Option User :=
  let r := refreshTokenAttempt cfg db tok req fresh now
  match r.1 with
  | .ok v => (.ok v, r.2)
  | .error _ => (.error (.unauthorized "Invalid refresh token"), r.2)

/-- Outcome of `JwtAuthGuard.handleRequest`: either the request proceeds with
an attached identity (possibly none on a public route) or it is terminated
with an error. -/
inductive GuardOutcome where
  | allow (user : Option User)
  | reject (err : AuthError)
deriving Repr, DecidableEq

/-- `JwtAuthGuard.handleRequest` (jwt-auth.guard): on a route marked public,
any error or missing user yields `null` (request proceeds anonymously);
otherwise the user is attached.  On a protected route an error or missing
user throws (the strategy's error, or `Unauthorized('Access token required')`
when there is none). -/
def handleRequest (isPublic : Bool) (err : Option AuthError) (user : Option User) :
    GuardOutcome :=
  if isPublic then
    if err.isSome || user.isNone then .allow none
    else .allow user
  else
    if err.isSome || user.isNone then
      .reject (err.getD (.unauthorized "Access token required"))
    else .allow user

end HoroHouse

namespace HoroHouse

/-- A JavaScript `Map.get`: the value of the first (unique) entry with the
key. -/
def mapGet {α : Type} (m : List (String × α)) (k : String) : Option α :=
  (m.find? (fun p => p.1 == k)).map Prod.snd

/-- A JavaScript `Map.set`: overwrite the entry in place when the key exists,
otherwise append a new entry (insertion order preserved). -/
def mapSet {α : Type} (m : List (String × α)) (k : String) (v : α) : List (String × α) :=
  if (m.find? (fun p => p.1 == k)).isSome then
    m.map (fun p => if p.1 == k then (k, v) else p)
  else m ++ [(k, v)]

/-- A JavaScript `Map.delete`: drop the entry with the key. -/
def mapDelete {α : Type} (m : List (String × α)) (k : String) : List (String × α) :=
  m.filter (fun p => !(p.1 == k))

/-- A JavaScript `Set.add`: append unless already present. -/
def setAdd (s : List String) (c : String) : List String :=
  if c ∈ s then s else s ++ [c]

/-- A JavaScript `Set.delete`: remove the element. -/
def setDelete (s : List String) (c : String) : List String :=
  s.filter (fun x => x ≠ c)

/-- The in-memory presence registry of `NotificationsGateway`: the forward
map `userSockets : Map<string, Set<string>>` and the reverse map
`socketToUser : Map<string, string>`. -/
structure Registry where
  userSockets : List (String × List String)
  socketToUser : List (String × String)
deriving Repr, DecidableEq

/-- The registry at process start: both maps empty. -/
def Registry.empty : Registry :=
  { userSockets := [], socketToUser := [] }

/-- The registration part of `NotificationsGateway.handleConnection`
(notifications.gateway.ts:100-105), reached after the handshake token
verified and yielded `userId`: create the user's socket set if absent, add
the socket id to it, and record the reverse mapping. -/
def handleConnection (st : Registry) (userId clientId : String) : Registry :=
  let us :=
    if (mapGet st.userSockets userId).isSome then st.userSockets
    else mapSet st.userSockets userId []
  let conns := (mapGet us userId).getD []
  { userSockets := mapSet us userId (setAdd conns clientId),
    socketToUser := mapSet st.socketToUser clientId userId }

/-- `NotificationsGateway.handleDisconnect` (notifications.gateway.ts:137-160):
look up the owning user in the reverse map; if found, delete the socket from
the user's set, dropping the whole entry when the set becomes empty, and
remove the reverse mapping; no-op when the socket was never registered. -/
def handleDisconnect (st : Registry) (clientId : String) : Registry :=
  match mapGet st.socketToUser clientId with
  | some userId =>
    let st1 :=
      match mapGet st.userSockets userId with
      | some conns =>
        let conns' := setDelete conns clientId
        if conns'.length = 0 then
          { st with userSockets := mapDelete st.userSockets userId }
        else
          { st with userSockets := mapSet st.userSockets userId conns' }
      | none => st
    { st1 with socketToUser := mapDelete st1.socketToUser clientId }
  | none => st

/-- `NotificationsGateway.isUserConnected` (notifications.gateway.ts:275-278):
the user's socket set exists and is nonempty. -/
def isUserConnected (st : Registry) (userId : String) : Bool :=
  match mapGet st.userSockets userId with
  | some conns => conns.length > 0
  | none => false

/-- `NotificationsGateway.getUserConnectionCount`
(notifications.gateway.ts:283-285): `get(userId)?.size || 0`. -/
def getUserConnectionCount (st : Registry) (userId : String) : Nat :=
  ((mapGet st.userSockets userId).map List.length).getD 0

/-- `NotificationsGateway.getConnectedUserIds`
(notifications.gateway.ts:290-292): the forward map's keys. -/
def getConnectedUserIds (st : Registry) : List String :=
  st.userSockets.map Prod.fst

/-- One registry mutation: a connection event (socket ids are unique per
connection, so `handleConnection` only ever fires for a socket id that is not
currently registered) or a disconnection event for an arbitrary socket id. -/
inductive RegistryStep : Registry → Registry → Prop where
  | connect (st : Registry) (userId clientId : String)
      (hfresh : mapGet st.socketToUser clientId = none) :
      RegistryStep st (handleConnection st userId clientId)
  | disconnect (st : Registry) (clientId : String) :
      RegistryStep st (handleDisconnect st clientId)

/-- Registry states reachable from the empty registry by connection and
disconnection events. -/
def RegistryReachable (st : Registry) : Prop :=
  Relation.ReflTransGen RegistryStep Registry.empty st

/-- The inductive invariant of the presence registry: both maps have
duplicate-free keys, every stored socket set is duplicate-free and nonempty,
and the forward and reverse maps list exactly the same (socket, user)
associations. -/
structure RegistryInv (st : Registry) : Prop where
  fwdKeys : (st.userSockets.map Prod.fst).Nodup
  revKeys : (st.socketToUser.map Prod.fst).Nodup
  connsNodup : ∀ u conns, (u, conns) ∈ st.userSockets → conns.Nodup
  connsNonempty : ∀ u conns, (u, conns) ∈ st.userSockets → conns ≠ []
  fwdRev : ∀ u conns c, (u, conns) ∈ st.userSockets → c ∈ conns → (c, u) ∈ st.socketToUser
  revFwd : ∀ c u, (c, u) ∈ st.socketToUser → ∃ conns, (u, conns) ∈ st.userSockets ∧ c ∈ conns

/-- A sample live session used by the concrete witnesses below. -/
def exSession1 : Session :=
  { id := "s1", refreshToken := "rt1", device := "d", ipAddress := "ip", userAgent := "ua",
    location := "loc", isActive := true, lastActive := 5, createdAt := 5, expiresAt := 1000 }

/-- A sample expired session used by the concrete witnesses below. -/
def exSession2 : Session :=
  { id := "s2", refreshToken := "rt2", device := "d", ipAddress := "ip", userAgent := "ua",
    location := "loc", isActive := true, lastActive := 3, createdAt := 3, expiresAt := 7 }

/-- A sample active user holding `exSession1`. -/
def exUser1 : User :=
  { uid := "u1", role := "user", isActive := true, sessions := [exSession1] }

/-- A sample active user holding a live and an expired session. -/
def exUser2 : User :=
  { uid := "u1", role := "user", isActive := true, sessions := [exSession1, exSession2] }

/-- The payload of an access token bound to `exSession1` of `exUser1`. -/
def exPayload1 : JwtPayload :=
  { sub := "u1", role := "user", sessionId := some "s1" }

/-- A family of distinct live sessions with `lastActive = k`, used by the
ceiling-eviction witness. -/
def exSessionAt (k : Nat) : Session :=
  { id := "a" ++ toString k, refreshToken := "r" ++ toString k, device := "d",
    ipAddress := "ip", userAgent := "ua", location := "loc", isActive := true,
    lastActive := k, createdAt := k, expiresAt := 10000 }

/-- Ten distinct unexpired sessions with `lastActive` 0 through 9. -/
def exTenSessions : List Session := (List.range 10).map exSessionAt

/-- A user at the session ceiling: ten unexpired sessions. -/
def exUserTen : User :=
  { uid := "u1", role := "user", isActive := true, sessions := exTenSessions }

/-- A refresh token bound to `exSession1` of `exUser1`, used by the refresh
scenarios: its serialized value is the one stored in the session. -/
def exRefreshTok : SignedToken :=
  { value := "rt1", payload := { sub := "u1", role := "user", sessionId := some "s1" },
    kind := TokenKind.refresh, expAt := 900 }

/-- The persisted state of `exUser1` after a first refresh at time 10 that
rotated the stored token value to `rt2`. -/
def exUser1Rot : User :=
  { uid := "u1", role := "user", isActive := true,
    sessions := [{ id := "s1", refreshToken := "rt2", device := "d", ipAddress := "ip",
                   userAgent := "ua", location := "loc", isActive := true, lastActive := 10,
                   createdAt := 5, expiresAt := 1000 }] }

/-- Claim C2: validating a payload whose `sessionId` names a session removed
by `logout` fails with `Unauthorized`, even though the access token itself is
structurally valid — server-side revocation overrides token validity. -/
theorem validateUser_after_logout_unauthorized
    (u : User) (sid : String) (payload : JwtPayload) (now : Nat)
    (hsub : payload.sub = u.uid) (hsid : payload.sessionId = some sid) :
    ∃ u', logout (dbOf u) u.uid (some sid) = some u' ∧
      ∃ msg, validateUser (dbOf u') payload now = .error (.unauthorized msg) := by
  refine ⟨{ u with sessions := u.sessions.filter (fun s => s.id ≠ sid) }, ?_, ?_⟩
  · unfold logout
    simp [dbOf]
  · have hfind : (u.sessions.filter (fun s => decide (s.id ≠ sid))).find?
        (fun s => some s.id == payload.sessionId && s.isActive) = none := by
      rw [List.find?_eq_none]
      intro x hx
      have hxid : ¬ (x.id = sid) := by simpa using List.of_mem_filter hx
      simp [hsid, hxid]
    have hdb : dbOf { u with sessions := u.sessions.filter (fun s => s.id ≠ sid) } u.uid
        = some { u with sessions := u.sessions.filter (fun s => s.id ≠ sid) } := by
      simp [dbOf]
    by_cases hact : u.isActive
    · refine ⟨"Session invalid or expired", ?_⟩
      unfold validateUser
      rw [hsub, hdb]
      dsimp only
      rw [if_neg (by simp [hact]), hfind]
    · refine ⟨"User not found or inactive", ?_⟩
      unfold validateUser
      rw [hsub, hdb]
      dsimp only
      rw [if_pos (by simpa using hact)]

/-- Witness for C2 at a concrete user, session and payload. -/
theorem validateUser_after_logout_unauthorized_witness :
    ∃ u', logout (dbOf exUser1) exUser1.uid (some "s1") = some u' ∧
      ∃ msg, validateUser (dbOf u') exPayload1 10 = .error (.unauthorized msg) :=
  validateUser_after_logout_unauthorized exUser1 "s1" exPayload1 10 rfl rfl

/-- Claim C8: on a public-optional route every authentication failure (an
error from the strategy or no resolved user) makes the guard attach no
identity and let the request proceed; on a protected route the same failures
terminate the request with an error. -/
theorem handleRequest_public_vs_protected
    (err : Option AuthError) (user : Option User)
    (hfail : err.isSome ∨ user = none) :
    handleRequest true err user = .allow none ∧
      ∃ e, handleRequest false err user = .reject e := by
  have hcond : (err.isSome || user.isNone) = true := by
    rcases hfail with h | h
    · simp [h]
    · simp [h]
  unfold handleRequest
  simp [hcond]

/-- Witness for C8: a missing token (no error, no user) proceeds anonymously
on a public route and is rejected on a protected one. -/
theorem handleRequest_public_vs_protected_witness :
    handleRequest true (none : Option AuthError) (none : Option User) = .allow none ∧
      ∃ e, handleRequest false (none : Option AuthError) (none : Option User) = .reject e :=
  handleRequest_public_vs_protected none none (Or.inr rfl)

/-- Claim C9: every session record returned by `getUserSessions` has its
`refreshToken` field absent — refresh tokens are never exposed in listings. -/
theorem getUserSessions_hides_refreshToken
    (db : String → Option User) (userId : String) (now : Nat)
    (views : List SessionView) (st : Option User)
    (h : getUserSessions db userId now = (.ok views, st)) :
    ∀ v ∈ views, v.refreshToken = none := by
  intro v hv
  unfold getUserSessions at h
  cases hdb : db userId with
  | none => rw [hdb] at h; simp at h
  | some userDoc =>
    rw [hdb] at h
    simp only [Prod.mk.injEq, Except.ok.injEq] at h
    obtain ⟨hv', _⟩ := h
    rw [← hv'] at hv
    rcases List.mem_map.mp hv with ⟨s, _, hs⟩
    rw [← hs]
    rfl

/-- Witness for C9 at a concrete user with one live and one expired session:
the one listed session record carries no refresh token. -/
theorem getUserSessions_hides_refreshToken_witness :
    (Session.toView exSession1).refreshToken = none :=
  getUserSessions_hides_refreshToken (dbOf exUser2) "u1" 10 [Session.toView exSession1]
    (some { uid := "u1", role := "user", isActive := true, sessions := [exSession1] })
    rfl (Session.toView exSession1) (by decide)

/-- Claim C10: `terminateSession` with a session id matching nothing fails
with `NotFound` and leaves the persisted session list unchanged, while
`logout` with the same unmatched id silently succeeds with the list likewise
unchanged. -/
theorem terminateSession_notFound_vs_logout_idempotent
    (u : User) (sid : String) (hnone : ∀ s ∈ u.sessions, s.id ≠ sid) :
    terminateSession (dbOf u) u.uid sid = (.error (.notFound "Session not found"), some u) ∧
      logout (dbOf u) u.uid (some sid) = some u := by
  have hfilter : u.sessions.filter (fun s => decide (s.id ≠ sid)) = u.sessions := by
    rw [List.filter_eq_self]
    intro s hs
    simpa using hnone s hs
  constructor
  · unfold terminateSession
    rw [show dbOf u u.uid = some u from by simp [dbOf]]
    dsimp only
    rw [hfilter, if_pos rfl]
  · unfold logout
    rw [show dbOf u u.uid = some u from by simp [dbOf]]
    dsimp only
    rw [hfilter]

/-- Witness for C10 at a concrete user whose single session does not match. -/
theorem terminateSession_notFound_vs_logout_idempotent_witness :
    terminateSession (dbOf exUser1) exUser1.uid "zz" =
      (.error (.notFound "Session not found"), some exUser1) ∧
      logout (dbOf exUser1) exUser1.uid (some "zz") = some exUser1 :=
  terminateSession_notFound_vs_logout_idempotent exUser1 "zz" (by decide)

end HoroHouse

namespace HoroHouse

/-- In a list sorted by descending `lastActive`, an element strictly more
recently active than every other element is among the first `n` for any
positive `n` (it can only sit at the head). -/
theorem mem_take_of_forall_lt {l : List Session} {x : Session} {n : Nat}
    (hs : l.Sorted moreRecentlyActive) (hx : x ∈ l)
    (hmax : ∀ y ∈ l, y ≠ x → y.lastActive < x.lastActive) (hn : 0 < n) :
    x ∈ l.take n := by
  cases l with
  | nil => cases hx
  | cons a t =>
    cases n with
    | zero => exact absurd hn (Nat.lt_irrefl 0)
    | succ n =>
      rw [List.take_succ_cons]
      by_cases hax : a = x
      · exact hax ▸ List.mem_cons_self a _
      · rcases List.mem_cons.mp hx with h | hxt
        · exact absurd h.symm hax
        · have h1 : moreRecentlyActive a x := (List.pairwise_cons.mp hs).1 x hxt
          have h2 : a.lastActive < x.lastActive := hmax a (List.mem_cons_self a t) hax
          exact absurd (Nat.lt_of_le_of_lt h1 h2) (Nat.lt_irrefl _)

/-- In a list sorted by descending `lastActive`, an element occurring once and
strictly less recently active than every other element is exactly the last
element. -/
theorem sorted_uniqueMin_decomp (l : List Session) (m : Session)
    (hs : l.Sorted moreRecentlyActive) (hm : m ∈ l)
    (hmin : ∀ y ∈ l, y ≠ m → m.lastActive < y.lastActive)
    (hcount : l.count m = 1) :
    ∃ l', l = l' ++ [m] ∧ m ∉ l' := by
  induction l with
  | nil => cases hm
  | cons a t ih =>
    by_cases ham : a = m
    · subst ham
      have hmt : a ∉ t := by
        have h0 : t.count a = 0 := by
          have := hcount
          rw [List.count_cons_self] at this
          omega
        exact List.count_eq_zero.mp h0
      have ht : t = [] := by
        cases t with
        | nil => rfl
        | cons b t' =>
          exfalso
          have hbm : b ≠ a := fun h => hmt (h ▸ List.mem_cons_self b t')
          have h1 : moreRecentlyActive a b := (List.pairwise_cons.mp hs).1 b (List.mem_cons_self b t')
          have h2 : a.lastActive < b.lastActive := hmin b (List.mem_cons_of_mem a (List.mem_cons_self b t')) hbm
          exact absurd (Nat.lt_of_le_of_lt h1 h2) (Nat.lt_irrefl _)
      exact ⟨[], by rw [ht]; rfl, by simp⟩
    · have hmt : m ∈ t := by
        rcases List.mem_cons.mp hm with h | h
        · exact absurd h.symm ham
        · exact h
      have hcount' : t.count m = 1 := by
        have := hcount
        rwa [List.count_cons_of_ne (fun h => ham h.symm)] at this
      obtain ⟨t', ht', hmnot⟩ := ih (List.pairwise_cons.mp hs).2 hmt
        (fun y hy hne => hmin y (List.mem_cons_of_mem a hy) hne) hcount'
      refine ⟨a :: t', by rw [ht']; rfl, ?_⟩
      intro hmem
      rcases List.mem_cons.mp hmem with h | h
      · exact ham h.symm
      · exact hmnot h

/-- Claim C3: a login (token generation with no existing session id) returns
access and refresh tokens whose payloads carry the same fresh `sessionId`,
and the newly created session is in the user's persisted session list
immediately afterwards.  The hypotheses state that the clock is ahead of
every stored `lastActive` (those were stamped by earlier calls) and the
configured refresh lifetime is positive. -/
theorem login_payloads_share_sessionId_and_session_created
    (cfg : AuthConfig) (user : User) (req : Option ReqInfo) (fresh : Fresh) (now : Nat)
    (hlast : ∀ s ∈ user.sessions, s.lastActive < now)
    (hlife : 0 < cfg.refreshLifetimeMs) :
    (generateTokens cfg user req none fresh now).1.1.payload.sessionId = some fresh.sessionId ∧
    (generateTokens cfg user req none fresh now).1.2.payload.sessionId = some fresh.sessionId ∧
    newSessionOf cfg req fresh now ∈ (generateTokens cfg user req none fresh now).2.sessions := by
  refine ⟨rfl, rfl, ?_⟩
  have hmem1 : newSessionOf cfg req fresh now
      ∈ user.sessions ++ [newSessionOf cfg req fresh now] := by simp
  have hpred : (newSessionOf cfg req fresh now).expiresAt > now := by
    show now < now + cfg.refreshLifetimeMs
    omega
  have hmem2 : newSessionOf cfg req fresh now
      ∈ (user.sessions ++ [newSessionOf cfg req fresh now]).filter
          (fun s => s.expiresAt > now) := by
    rw [List.mem_filter]
    exact ⟨hmem1, by simpa using hpred⟩
  show newSessionOf cfg req fresh now ∈
    (if ((user.sessions ++ [newSessionOf cfg req fresh now]).filter
        (fun s => s.expiresAt > now)).length > 10 then
      (((user.sessions ++ [newSessionOf cfg req fresh now]).filter
        (fun s => s.expiresAt > now)).insertionSort moreRecentlyActive).take 10
    else
      (user.sessions ++ [newSessionOf cfg req fresh now]).filter
        (fun s => s.expiresAt > now))
  by_cases hgt : ((user.sessions ++ [newSessionOf cfg req fresh now]).filter
      (fun s => s.expiresAt > now)).length > 10
  · rw [if_pos hgt]
    apply mem_take_of_forall_lt (List.sorted_insertionSort moreRecentlyActive _)
      (((List.perm_insertionSort moreRecentlyActive _).mem_iff).mpr hmem2) ?_ (by omega)
    intro y hy hne
    have hy2 := ((List.perm_insertionSort moreRecentlyActive _).mem_iff).mp hy
    have hy3 := (List.mem_filter.mp hy2).1
    rcases List.mem_append.mp hy3 with h | h
    · show y.lastActive < now
      exact hlast y h
    · exact absurd (List.mem_singleton.mp h) hne
  · rw [if_neg hgt]
    exact hmem2

/-- Witness for C3 at a user with no prior sessions. -/
theorem login_payloads_share_sessionId_and_session_created_witness :
    (generateTokens { refreshLifetimeMs := 1000, accessLifetimeMs := 50 }
        { uid := "u1", role := "user", isActive := true, sessions := [] } none none
        { sessionId := "sid1", accessValue := "av", refreshValue := "rv" } 100).1.1.payload.sessionId
      = some "sid1" ∧
    (generateTokens { refreshLifetimeMs := 1000, accessLifetimeMs := 50 }
        { uid := "u1", role := "user", isActive := true, sessions := [] } none none
        { sessionId := "sid1", accessValue := "av", refreshValue := "rv" } 100).1.2.payload.sessionId
      = some "sid1" ∧
    newSessionOf { refreshLifetimeMs := 1000, accessLifetimeMs := 50 } none
        { sessionId := "sid1", accessValue := "av", refreshValue := "rv" } 100
      ∈ (generateTokens { refreshLifetimeMs := 1000, accessLifetimeMs := 50 }
        { uid := "u1", role := "user", isActive := true, sessions := [] } none none
        { sessionId := "sid1", accessValue := "av", refreshValue := "rv" } 100).2.sessions :=
  login_payloads_share_sessionId_and_session_created
    { refreshLifetimeMs := 1000, accessLifetimeMs := 50 }
    { uid := "u1", role := "user", isActive := true, sessions := [] } none
    { sessionId := "sid1", accessValue := "av", refreshValue := "rv" } 100
    (by simp) (by decide)

end HoroHouse

namespace HoroHouse

/-- Claim C4: when a user holds 10 unexpired sessions, a login creates an 11th
and the ceiling logic evicts exactly the session with the least-recent
`lastActive`, leaving exactly 10 sessions including the new one and all
others.  The hypotheses describe a reachable state: 10 distinct sessions, all
unexpired, all stamped before `now`, with a unique least-recently-active
member `m`, and a positive configured refresh lifetime. -/
theorem eleventh_session_evicts_least_recently_active
    (cfg : AuthConfig) (user : User) (req : Option ReqInfo) (fresh : Fresh) (now : Nat)
    (m : Session)
    (hlen : user.sessions.length = 10)
    (hunexp : ∀ s ∈ user.sessions, now < s.expiresAt)
    (hlast : ∀ s ∈ user.sessions, s.lastActive < now)
    (hnodup : user.sessions.Nodup)
    (hm : m ∈ user.sessions)
    (hmin : ∀ s ∈ user.sessions, s ≠ m → m.lastActive < s.lastActive)
    (hlife : 0 < cfg.refreshLifetimeMs) :
    (generateTokens cfg user req none fresh now).2.sessions.length = 10 ∧
    newSessionOf cfg req fresh now ∈ (generateTokens cfg user req none fresh now).2.sessions ∧
    m ∉ (generateTokens cfg user req none fresh now).2.sessions ∧
    ∀ s ∈ user.sessions, s ≠ m → s ∈ (generateTokens cfg user req none fresh now).2.sessions := by
  have hnewlast : (newSessionOf cfg req fresh now).lastActive = now := rfl
  have hmnew : m ≠ newSessionOf cfg req fresh now := by
    intro h
    have := hlast m hm
    rw [h, hnewlast] at this
    exact Nat.lt_irrefl now this
  have hfilter : (user.sessions ++ [newSessionOf cfg req fresh now]).filter
      (fun s => s.expiresAt > now) = user.sessions ++ [newSessionOf cfg req fresh now] := by
    rw [List.filter_eq_self]
    intro s hs
    rcases List.mem_append.mp hs with h | h
    · simpa using hunexp s h
    · rw [List.mem_singleton.mp h]
      have : now < now + cfg.refreshLifetimeMs := by omega
      simpa [newSessionOf] using this
  have hlen1 : (user.sessions ++ [newSessionOf cfg req fresh now]).length = 11 := by
    rw [List.length_append, hlen]
    rfl
  have hresult : (generateTokens cfg user req none fresh now).2.sessions
      = ((user.sessions ++ [newSessionOf cfg req fresh now]).insertionSort
          moreRecentlyActive).take 10 := by
    show (if ((user.sessions ++ [newSessionOf cfg req fresh now]).filter
        (fun s => s.expiresAt > now)).length > 10 then
        (((user.sessions ++ [newSessionOf cfg req fresh now]).filter
          (fun s => s.expiresAt > now)).insertionSort moreRecentlyActive).take 10
      else
        (user.sessions ++ [newSessionOf cfg req fresh now]).filter
          (fun s => s.expiresAt > now)) = _
    rw [hfilter, if_pos (by rw [hlen1]; omega)]
  have hperm := List.perm_insertionSort moreRecentlyActive
    (user.sessions ++ [newSessionOf cfg req fresh now])
  have hsortlen : ((user.sessions ++ [newSessionOf cfg req fresh now]).insertionSort
      moreRecentlyActive).length = 11 := by
    rw [hperm.length_eq, hlen1]
  have hmmem : m ∈ (user.sessions ++ [newSessionOf cfg req fresh now]).insertionSort
      moreRecentlyActive := hperm.mem_iff.mpr (List.mem_append.mpr (Or.inl hm))
  have hminsort : ∀ y ∈ (user.sessions ++ [newSessionOf cfg req fresh now]).insertionSort
      moreRecentlyActive, y ≠ m → m.lastActive < y.lastActive := by
    intro y hy hne
    rcases List.mem_append.mp (hperm.mem_iff.mp hy) with h | h
    · exact hmin y h hne
    · rw [List.mem_singleton.mp h, hnewlast]
      exact hlast m hm
  have hcount : ((user.sessions ++ [newSessionOf cfg req fresh now]).insertionSort
      moreRecentlyActive).count m = 1 := by
    rw [hperm.count_eq, List.count_append]
    have h1 : user.sessions.count m = 1 := List.count_eq_one_of_mem hnodup hm
    have h2 : List.count m [newSessionOf cfg req fresh now] = 0 := by
      rw [List.count_eq_zero]
      simpa using hmnew
    rw [h1]
    simpa using h2
  obtain ⟨l', hdecomp, hmnot⟩ := sorted_uniqueMin_decomp _ m
    (List.sorted_insertionSort moreRecentlyActive _) hmmem hminsort hcount
  have hl'len : l'.length = 10 := by
    have := hsortlen
    rw [hdecomp, List.length_append] at this
    simpa using this
  have htake : ((user.sessions ++ [newSessionOf cfg req fresh now]).insertionSort
      moreRecentlyActive).take 10 = l' := by
    rw [hdecomp]
    exact List.take_left' hl'len
  have hmemsort : ∀ s ∈ user.sessions ++ [newSessionOf cfg req fresh now], s ≠ m → s ∈ l' := by
    intro s hs hne
    have : s ∈ l' ++ [m] := by
      rw [← hdecomp]
      exact hperm.mem_iff.mpr hs
    rcases List.mem_append.mp this with h | h
    · exact h
    · exact absurd (List.mem_singleton.mp h) hne
  rw [hresult, htake]
  refine ⟨hl'len, ?_, hmnot, ?_⟩
  · exact hmemsort (newSessionOf cfg req fresh now)
      (List.mem_append.mpr (Or.inr (List.mem_singleton.mpr rfl))) (fun h => hmnew h.symm)
  · intro s hs hne
    exact hmemsort s (List.mem_append.mpr (Or.inl hs)) hne

end HoroHouse

namespace HoroHouse

/-- Witness for C4: a user with ten distinct unexpired sessions
(`lastActive` 0..9); the session with `lastActive = 0` is evicted by the
eleventh login. -/
theorem eleventh_session_evicts_least_recently_active_witness :
    (generateTokens { refreshLifetimeMs := 1000, accessLifetimeMs := 50 } exUserTen none none
        { sessionId := "sid1", accessValue := "av", refreshValue := "rv" } 100).2.sessions.length
      = 10 ∧
    newSessionOf { refreshLifetimeMs := 1000, accessLifetimeMs := 50 } none
        { sessionId := "sid1", accessValue := "av", refreshValue := "rv" } 100
      ∈ (generateTokens { refreshLifetimeMs := 1000, accessLifetimeMs := 50 } exUserTen none none
        { sessionId := "sid1", accessValue := "av", refreshValue := "rv" } 100).2.sessions ∧
    exSessionAt 0 ∉ (generateTokens { refreshLifetimeMs := 1000, accessLifetimeMs := 50 }
        exUserTen none none
        { sessionId := "sid1", accessValue := "av", refreshValue := "rv" } 100).2.sessions ∧
    ∀ s ∈ exUserTen.sessions, s ≠ exSessionAt 0 →
      s ∈ (generateTokens { refreshLifetimeMs := 1000, accessLifetimeMs := 50 } exUserTen none none
        { sessionId := "sid1", accessValue := "av", refreshValue := "rv" } 100).2.sessions :=
  eleventh_session_evicts_least_recently_active
    { refreshLifetimeMs := 1000, accessLifetimeMs := 50 } exUserTen none
    { sessionId := "sid1", accessValue := "av", refreshValue := "rv" } 100 (exSessionAt 0)
    (by decide) (by decide) (by decide) (by decide) (by decide) (by decide) (by decide)

end HoroHouse

namespace HoroHouse

/-- Auxiliary: `findIdx?` with an arbitrary start index, over a list whose
session ids are distinct, locates exactly the given member when the predicate
holds of it and forces its id. -/
theorem findIdx?_session_spec (p : Session → Bool) (s : Session) :
    ∀ (l : List Session) (k : Nat), (l.map Session.id).Nodup → s ∈ l → p s = true →
      (∀ t, p t = true → t.id = s.id) →
      ∃ j, List.findIdx? p l k = some (k + j) ∧ l[j]? = some s := by
  intro l
  induction l with
  | nil => intro k _ hs _ _; cases hs
  | cons a t ih =>
    intro k hnd hs hps hp
    rw [List.findIdx?_cons]
    by_cases hpa : p a = true
    · have has : a = s := by
        rcases List.mem_cons.mp hs with h | h
        · exact h.symm
        · exfalso
          have hid : a.id = s.id := hp a hpa
          have hin : s.id ∈ t.map Session.id := List.mem_map.mpr ⟨s, h, rfl⟩
          have hout : a.id ∉ t.map Session.id := by
            rw [List.map_cons] at hnd
            exact (List.nodup_cons.mp hnd).1
          exact hout (hid ▸ hin)
      refine ⟨0, ?_, ?_⟩
      · rw [if_pos hpa, Nat.add_zero]
      · rw [has]
        exact List.getElem?_cons_zero
    · have hsa : s ≠ a := fun h => hpa (h ▸ hps)
      have hst : s ∈ t := by
        rcases List.mem_cons.mp hs with h | h
        · exact absurd h hsa
        · exact h
      have hnd' : (t.map Session.id).Nodup := by
        rw [List.map_cons] at hnd
        exact (List.nodup_cons.mp hnd).2
      obtain ⟨j, hj, hgj⟩ := ih (k + 1) hnd' hst hps hp
      refine ⟨j + 1, ?_, ?_⟩
      · rw [if_neg hpa, hj]
        congr 1
        omega
      · rw [List.getElem?_cons_succ]
        exact hgj

/-- Specialization of `findIdx?_session_spec` to the default start index. -/
theorem findIdx?_session_of_nodup (l : List Session) (s : Session) (p : Session → Bool)
    (hnd : (l.map Session.id).Nodup) (hs : s ∈ l) (hps : p s = true)
    (hp : ∀ t, p t = true → t.id = s.id) :
    ∃ j, l.findIdx? p = some j ∧ l[j]? = some s := by
  obtain ⟨j, hj, hgj⟩ := findIdx?_session_spec p s l 0 hnd hs hps hp
  refine ⟨j, ?_, hgj⟩
  rw [hj, Nat.zero_add]

/-- Setting an index to the value already stored there leaves a list
unchanged. -/
theorem set_same_of_getElem? {α : Type} (l : List α) (i : Nat) (a : α)
    (h : l[i]? = some a) : l.set i a = l := by
  apply List.ext_getElem?
  intro n
  by_cases hn : n = i
  · subst hn
    rw [List.getElem?_set_self (List.getElem?_eq_some.mp h).1, h]
  · rw [List.getElem?_set_ne (fun hh => hn hh.symm)]

/-- Replacing a session in place by one with the same id does not change the
list of session ids. -/
theorem map_id_set (l : List Session) (i : Nat) (s x : Session)
    (h : l[i]? = some s) (hid : x.id = s.id) :
    (l.set i x).map Session.id = l.map Session.id := by
  rw [List.map_set, hid]
  apply set_same_of_getElem?
  rw [List.getElem?_map, h]
  rfl

/-- A value written by `set` at an in-range index is a member of the result. -/
theorem mem_set_self {α : Type} (l : List α) (i : Nat) (x : α) (h : i < l.length) :
    x ∈ l.set i x :=
  List.getElem?_mem (List.getElem?_set_self h)

end HoroHouse

namespace HoroHouse

/-- Success behaviour of `refreshToken` when the supplied token verifies, the
user is active, and the payload's `sessionId` names a live unexpired session:
the call succeeds, both returned token payloads carry the same `sessionId`,
and the named session is updated in place (same id, new stored token value,
new `lastActive`, unchanged `expiresAt`), with the list of session ids
unchanged. -/
theorem refreshToken_success_spec
    (cfg : AuthConfig) (u : User) (s : Session) (tok : SignedToken)
    (req : Option ReqInfo) (fresh : Fresh) (now : Nat)
    (hnd : (u.sessions.map Session.id).Nodup)
    (hs : s ∈ u.sessions) (hact : s.isActive = true) (hid : s.id ≠ "")
    (hexp : ¬ s.expiresAt < now) (huact : u.isActive = true)
    (hkind : tok.kind = TokenKind.refresh) (htok : now < tok.expAt)
    (hsub : tok.payload.sub = u.uid) (hsid : tok.payload.sessionId = some s.id) :
    ∃ u' s'',
      refreshToken cfg (dbOf u) tok req fresh now
        = (.ok (({ value := fresh.accessValue,
                   payload := { sub := u.uid, role := u.role, sessionId := some s.id },
                   kind := TokenKind.access, expAt := now + cfg.accessLifetimeMs },
                 { value := fresh.refreshValue,
                   payload := { sub := u.uid, role := u.role, sessionId := some s.id },
                   kind := TokenKind.refresh, expAt := now + cfg.refreshLifetimeMs }), u'),
           some u') ∧
      u'.uid = u.uid ∧ u'.role = u.role ∧ u'.isActive = true ∧
      u'.sessions.map Session.id = u.sessions.map Session.id ∧
      s'' ∈ u'.sessions ∧ s''.id = s.id ∧ s''.isActive = true ∧
      s''.refreshToken = fresh.refreshValue ∧ s''.expiresAt = s.expiresAt ∧
      s''.lastActive = now := by
  have hverify : verifyToken tok TokenKind.refresh now = some tok.payload := by
    unfold verifyToken
    rw [if_pos ⟨hkind, htok⟩]
  have hdb : dbOf u tok.payload.sub = some u := by
    rw [hsub]
    simp [dbOf]
  have hjs : jsTruthy tok.payload.sessionId = true := by
    rw [hsid]
    simpa [jsTruthy] using hid
  obtain ⟨i, hfind1, hget1⟩ := findIdx?_session_of_nodup u.sessions s
    (fun t => some t.id == tok.payload.sessionId && t.isActive) hnd hs
    (by rw [hsid]; simp [hact])
    (by intro t ht
        rw [hsid] at ht
        simp only [Bool.and_eq_true, beq_iff_eq, Option.some.injEq] at ht
        exact ht.1)
  obtain ⟨hilt, -⟩ := List.getElem?_eq_some.mp hget1
  have hmap1 : ((u.sessions.set i
      { s with lastActive := now,
               ipAddress := if req.isSome then getClientIp req else s.ipAddress,
               userAgent := if req.isSome then reqUserAgent req else s.userAgent }).map
        Session.id) = u.sessions.map Session.id :=
    map_id_set _ _ _ _ hget1 rfl
  obtain ⟨j, hfind2, hget2⟩ := findIdx?_session_of_nodup
    (u.sessions.set i
      { s with lastActive := now,
               ipAddress := if req.isSome then getClientIp req else s.ipAddress,
               userAgent := if req.isSome then reqUserAgent req else s.userAgent })
    { s with lastActive := now,
             ipAddress := if req.isSome then getClientIp req else s.ipAddress,
             userAgent := if req.isSome then reqUserAgent req else s.userAgent }
    (fun t => t.id == s.id)
    (by rw [hmap1]; exact hnd)
    (mem_set_self _ _ _ hilt)
    (by simp)
    (by intro t ht
        simp only [beq_iff_eq] at ht
        exact ht)
  obtain ⟨hjlt, -⟩ := List.getElem?_eq_some.mp hget2
  refine ⟨{ uid := u.uid, role := u.role, isActive := u.isActive,
            sessions := (u.sessions.set i
              { s with lastActive := now,
                       ipAddress := if req.isSome then getClientIp req else s.ipAddress,
                       userAgent := if req.isSome then reqUserAgent req else s.userAgent }).set j
              { s with refreshToken := fresh.refreshValue, lastActive := now,
                       ipAddress := if req.isSome then getClientIp req else s.ipAddress,
                       userAgent := if req.isSome then reqUserAgent req else s.userAgent } },
          { s with refreshToken := fresh.refreshValue, lastActive := now,
                   ipAddress := if req.isSome then getClientIp req else s.ipAddress,
                   userAgent := if req.isSome then reqUserAgent req else s.userAgent },
          ?_, rfl, rfl, huact, ?_, ?_, rfl, hact, rfl, rfl, rfl⟩
  · have hattempt : refreshTokenAttempt cfg (dbOf u) tok req fresh now
        = (.ok (({ value := fresh.accessValue,
                   payload := { sub := u.uid, role := u.role, sessionId := some s.id },
                   kind := TokenKind.access, expAt := now + cfg.accessLifetimeMs },
                 { value := fresh.refreshValue,
                   payload := { sub := u.uid, role := u.role, sessionId := some s.id },
                   kind := TokenKind.refresh, expAt := now + cfg.refreshLifetimeMs }),
                { uid := u.uid, role := u.role, isActive := u.isActive,
                  sessions := (u.sessions.set i
                    { s with lastActive := now,
                             ipAddress := if req.isSome then getClientIp req else s.ipAddress,
                             userAgent := if req.isSome then reqUserAgent req else s.userAgent }).set j
                    { s with refreshToken := fresh.refreshValue, lastActive := now,
                             ipAddress := if req.isSome then getClientIp req else s.ipAddress,
                             userAgent := if req.isSome then reqUserAgent req else s.userAgent } }),
           some { uid := u.uid, role := u.role, isActive := u.isActive,
                  sessions := (u.sessions.set i
                    { s with lastActive := now,
                             ipAddress := if req.isSome then getClientIp req else s.ipAddress,
                             userAgent := if req.isSome then reqUserAgent req else s.userAgent }).set j
                    { s with refreshToken := fresh.refreshValue, lastActive := now,
                             ipAddress := if req.isSome then getClientIp req else s.ipAddress,
                             userAgent := if req.isSome then reqUserAgent req else s.userAgent } }) := by
      unfold refreshTokenAttempt
      rw [hverify]
      dsimp only
      rw [hdb]
      dsimp only
      rw [if_neg (by simp [huact])]
      rw [hjs]
      rw [if_pos rfl]
      rw [hfind1]
      dsimp only
      rw [hget1]
      dsimp only
      rw [if_neg hexp]
      unfold generateTokens
      dsimp only [Option.getD]
      rw [hfind2]
      dsimp only
      rw [hget2]
    unfold refreshToken
    rw [hattempt]
  · have hmap2 := map_id_set _ _ _
      ({ s with refreshToken := fresh.refreshValue, lastActive := now,
                ipAddress := if req.isSome then getClientIp req else s.ipAddress,
                userAgent := if req.isSome then reqUserAgent req else s.userAgent })
      hget2 rfl
    rw [hmap2, hmap1]
  · exact mem_set_self _ _ _ hjlt

end HoroHouse

namespace HoroHouse

/-- Claim C1 (amended): refreshing with a valid refresh token rotates the
stored token value in place and preserves the `sessionId` carried by both new
token payloads; but refreshing a second time with the first (now-superseded)
refresh token succeeds again rather than failing, because the session is
located by the payload's `sessionId` and the stored token value is only
consulted as a fallback. -/
theorem refresh_rotates_in_place_but_superseded_token_succeeds
    (cfg : AuthConfig) (u : User) (s : Session) (tok : SignedToken)
    (req req2 : Option ReqInfo) (fresh fresh2 : Fresh) (now now2 : Nat)
    (hnd : (u.sessions.map Session.id).Nodup)
    (hs : s ∈ u.sessions) (hact : s.isActive = true) (hid : s.id ≠ "")
    (hexp : ¬ s.expiresAt < now) (huact : u.isActive = true)
    (hkind : tok.kind = TokenKind.refresh) (htok : now < tok.expAt)
    (hsub : tok.payload.sub = u.uid) (hsid : tok.payload.sessionId = some s.id)
    (htok2 : now2 < tok.expAt) (hexp2 : ¬ s.expiresAt < now2) :
    ∃ toks u' s'',
      refreshToken cfg (dbOf u) tok req fresh now = (.ok (toks, u'), some u') ∧
      toks.1.payload.sessionId = some s.id ∧
      toks.2.payload.sessionId = some s.id ∧
      u'.sessions.map Session.id = u.sessions.map Session.id ∧
      s'' ∈ u'.sessions ∧ s''.id = s.id ∧ s''.refreshToken = fresh.refreshValue ∧
      ∃ v, (refreshToken cfg (dbOf u') tok req2 fresh2 now2).1 = Except.ok v := by
  obtain ⟨u', s'', heq, huid, hrole, huact', hmap, hmem, hsid'', hact'', hrt, hexp'', hla⟩ :=
    refreshToken_success_spec cfg u s tok req fresh now hnd hs hact hid hexp huact hkind
      htok hsub hsid
  refine ⟨_, u', s'', heq, rfl, rfl, hmap, hmem, hsid'', hrt, ?_⟩
  obtain ⟨u2, s2, heq2, -⟩ :=
    refreshToken_success_spec cfg u' s'' tok req2 fresh2 now2
      (by rw [hmap]; exact hnd) hmem hact'' (by rw [hsid'']; exact hid)
      (by rw [hexp'']; exact hexp2) huact' hkind htok2
      (by rw [hsub]; exact huid.symm) (by rw [hsid, hsid''])
  exact ⟨_, by rw [heq2]⟩

/-- Witness for C1 (amended) at the concrete single-session user. -/
theorem refresh_rotates_in_place_but_superseded_token_succeeds_witness :
    ∃ toks u' s'',
      refreshToken { refreshLifetimeMs := 700, accessLifetimeMs := 50 } (dbOf exUser1)
          exRefreshTok none { sessionId := "f1", accessValue := "a2", refreshValue := "rt2" } 10
        = (.ok (toks, u'), some u') ∧
      toks.1.payload.sessionId = some exSession1.id ∧
      toks.2.payload.sessionId = some exSession1.id ∧
      u'.sessions.map Session.id = exUser1.sessions.map Session.id ∧
      s'' ∈ u'.sessions ∧ s''.id = exSession1.id ∧ s''.refreshToken = "rt2" ∧
      ∃ v, (refreshToken { refreshLifetimeMs := 700, accessLifetimeMs := 50 } (dbOf u')
          exRefreshTok none
          { sessionId := "f2", accessValue := "a3", refreshValue := "rt3" } 20).1
        = Except.ok v :=
  refresh_rotates_in_place_but_superseded_token_succeeds
    { refreshLifetimeMs := 700, accessLifetimeMs := 50 } exUser1 exSession1 exRefreshTok
    none none { sessionId := "f1", accessValue := "a2", refreshValue := "rt2" }
    { sessionId := "f2", accessValue := "a3", refreshValue := "rt3" } 10 20
    (by decide) (by decide) (by decide) (by decide) (by decide) (by decide) (by decide)
    (by decide) (by decide) (by decide) (by decide) (by decide)

/-- Counterexample for C1 as stated: after a first successful refresh rotated
the stored value to `rt2`, a second refresh presenting the original
(superseded) token `rt1` still succeeds — there is a silent success instead
of the claimed failure. -/
theorem refresh_superseded_token_silently_succeeds_counterexample :
    (refreshToken { refreshLifetimeMs := 700, accessLifetimeMs := 50 } (dbOf exUser1)
        exRefreshTok none { sessionId := "f1", accessValue := "a2", refreshValue := "rt2" } 10).2
      = some exUser1Rot ∧
    ((refreshToken { refreshLifetimeMs := 700, accessLifetimeMs := 50 } (dbOf exUser1)
        exRefreshTok none { sessionId := "f1", accessValue := "a2", refreshValue := "rt2" } 10).1).isOk
      = true ∧
    ((refreshToken { refreshLifetimeMs := 700, accessLifetimeMs := 50 } (dbOf exUser1Rot)
        exRefreshTok none { sessionId := "f2", accessValue := "a3", refreshValue := "rt3" } 20).1).isOk
      = true := by
  refine ⟨?_, ?_, ?_⟩ <;> decide

/-- Claim C7: a refresh that locates a session whose `expiresAt` has passed
fails (internally `Session expired`, surfaced by the catch-all as
`Invalid refresh token`), and the expired session has been removed from the
persisted session list before the throw, so the removal survives the
failure. -/
theorem refresh_expired_session_fails_and_purges
    (cfg : AuthConfig) (u : User) (s : Session) (tok : SignedToken)
    (req : Option ReqInfo) (fresh : Fresh) (now : Nat)
    (hnd : (u.sessions.map Session.id).Nodup)
    (hs : s ∈ u.sessions) (hact : s.isActive = true) (hid : s.id ≠ "")
    (hexpired : s.expiresAt < now) (huact : u.isActive = true)
    (hkind : tok.kind = TokenKind.refresh) (htok : now < tok.expAt)
    (hsub : tok.payload.sub = u.uid) (hsid : tok.payload.sessionId = some s.id) :
    refreshTokenAttempt cfg (dbOf u) tok req fresh now
      = (.error (.unauthorized "Session expired"),
         some { uid := u.uid, role := u.role, isActive := u.isActive,
                sessions := u.sessions.filter (fun t => t.id ≠ s.id) }) ∧
    refreshToken cfg (dbOf u) tok req fresh now
      = (.error (.unauthorized "Invalid refresh token"),
         some { uid := u.uid, role := u.role, isActive := u.isActive,
                sessions := u.sessions.filter (fun t => t.id ≠ s.id) }) ∧
    ∀ t ∈ u.sessions.filter (fun t => t.id ≠ s.id), t.id ≠ s.id := by
  have hverify : verifyToken tok TokenKind.refresh now = some tok.payload := by
    unfold verifyToken
    rw [if_pos ⟨hkind, htok⟩]
  have hdb : dbOf u tok.payload.sub = some u := by
    rw [hsub]
    simp [dbOf]
  have hjs : jsTruthy tok.payload.sessionId = true := by
    rw [hsid]
    simpa [jsTruthy] using hid
  obtain ⟨i, hfind1, hget1⟩ := findIdx?_session_of_nodup u.sessions s
    (fun t => some t.id == tok.payload.sessionId && t.isActive) hnd hs
    (by rw [hsid]; simp [hact])
    (by intro t ht
        rw [hsid] at ht
        simp only [Bool.and_eq_true, beq_iff_eq, Option.some.injEq] at ht
        exact ht.1)
  have hattempt : refreshTokenAttempt cfg (dbOf u) tok req fresh now
      = (.error (.unauthorized "Session expired"),
         some { uid := u.uid, role := u.role, isActive := u.isActive,
                sessions := u.sessions.filter (fun t => t.id ≠ s.id) }) := by
    unfold refreshTokenAttempt
    rw [hverify]
    dsimp only
    rw [hdb]
    dsimp only
    rw [if_neg (by simp [huact])]
    rw [hjs]
    rw [if_pos rfl]
    rw [hfind1]
    dsimp only
    rw [hget1]
    dsimp only
    rw [if_pos hexpired]
  refine ⟨hattempt, ?_, ?_⟩
  · unfold refreshToken
    rw [hattempt]
  · intro t ht
    have := List.of_mem_filter ht
    simpa using this

/-- Witness for C7: the expired session `s2` of the two-session user is
removed by the failing refresh. -/
theorem refresh_expired_session_fails_and_purges_witness :
    refreshTokenAttempt { refreshLifetimeMs := 700, accessLifetimeMs := 50 } (dbOf exUser2)
        { value := "rt2", payload := { sub := "u1", role := "user", sessionId := some "s2" },
          kind := TokenKind.refresh, expAt := 900 } none
        { sessionId := "f1", accessValue := "a2", refreshValue := "rt9" } 10
      = (.error (.unauthorized "Session expired"),
         some { uid := exUser2.uid, role := exUser2.role, isActive := exUser2.isActive,
                sessions := exUser2.sessions.filter (fun t => t.id ≠ exSession2.id) }) ∧
    refreshToken { refreshLifetimeMs := 700, accessLifetimeMs := 50 } (dbOf exUser2)
        { value := "rt2", payload := { sub := "u1", role := "user", sessionId := some "s2" },
          kind := TokenKind.refresh, expAt := 900 } none
        { sessionId := "f1", accessValue := "a2", refreshValue := "rt9" } 10
      = (.error (.unauthorized "Invalid refresh token"),
         some { uid := exUser2.uid, role := exUser2.role, isActive := exUser2.isActive,
                sessions := exUser2.sessions.filter (fun t => t.id ≠ exSession2.id) }) ∧
    ∀ t ∈ exUser2.sessions.filter (fun t => t.id ≠ exSession2.id), t.id ≠ exSession2.id :=
  refresh_expired_session_fails_and_purges
    { refreshLifetimeMs := 700, accessLifetimeMs := 50 } exUser2 exSession2
    { value := "rt2", payload := { sub := "u1", role := "user", sessionId := some "s2" },
      kind := TokenKind.refresh, expAt := 900 } none
    { sessionId := "f1", accessValue := "a2", refreshValue := "rt9" } 10
    (by decide) (by decide) (by decide) (by decide) (by decide) (by decide) (by decide)
    (by decide) (by decide) (by decide)

end HoroHouse

namespace HoroHouse

/-- `mapGet` on a cons. -/
theorem mapGet_cons {α : Type} (p : String × α) (m : List (String × α)) (k : String) :
    mapGet (p :: m) k = if p.1 == k then some p.2 else mapGet m k := by
  by_cases h : p.1 == k
  · simp [mapGet, List.find?_cons, h]
  · simp only [Bool.not_eq_true] at h
    simp [mapGet, List.find?_cons, h]

/-- A successful `mapGet` returns a stored entry. -/
theorem mem_of_mapGet_eq_some {α : Type} {m : List (String × α)} {k : String} {v : α}
    (h : mapGet m k = some v) : (k, v) ∈ m := by
  induction m with
  | nil => simp [mapGet] at h
  | cons p t ih =>
    rw [mapGet_cons] at h
    by_cases hp : p.1 == k
    · rw [if_pos hp] at h
      have hk : p.1 = k := by simpa using hp
      have hv : p.2 = v := by simpa using h
      have hpv : p = (k, v) := by
        rw [← hk, ← hv]
      exact List.mem_cons.mpr (Or.inl hpv.symm)
    · rw [if_neg hp] at h
      exact List.mem_cons_of_mem p (ih h)

/-- With distinct keys, a stored entry is what `mapGet` returns. -/
theorem mapGet_eq_some_of_mem {α : Type} {m : List (String × α)} {k : String} {v : α}
    (hnd : (m.map Prod.fst).Nodup) (hm : (k, v) ∈ m) : mapGet m k = some v := by
  induction m with
  | nil => cases hm
  | cons p t ih =>
    rw [List.map_cons] at hnd
    rcases List.mem_cons.mp hm with h | h
    · rw [mapGet_cons, ← h]
      simp
    · have hk : k ∈ t.map Prod.fst := List.mem_map.mpr ⟨(k, v), h, rfl⟩
      have hp : ¬ (p.1 == k) := by
        intro hb
        have : p.1 = k := by simpa using hb
        exact (List.nodup_cons.mp hnd).1 (this ▸ hk)
      rw [mapGet_cons, if_neg hp]
      exact ih (List.nodup_cons.mp hnd).2 h

/-- A `none` result of `mapGet` means the key is absent. -/
theorem not_mem_keys_of_mapGet_eq_none {α : Type} {m : List (String × α)} {k : String}
    (h : mapGet m k = none) : k ∉ m.map Prod.fst := by
  induction m with
  | nil => simp
  | cons q t ih =>
    rw [mapGet_cons] at h
    by_cases hq : q.1 == k
    · rw [if_pos hq] at h
      cases h
    · rw [if_neg hq] at h
      rw [List.map_cons]
      intro hk
      rcases List.mem_cons.mp hk with h1 | h1
      · exact hq (by rw [h1]; simp)
      · exact ih h h1

/-- No entry with an absent key is stored. -/
theorem not_mem_of_mapGet_eq_none {α : Type} {m : List (String × α)} {k : String} {v : α}
    (h : mapGet m k = none) : (k, v) ∉ m := by
  intro hm
  exact not_mem_keys_of_mapGet_eq_none h (List.mem_map.mpr ⟨(k, v), hm, rfl⟩)

/-- Membership in `mapSet`: the written entry, or an untouched entry with a
different key. -/
theorem mem_mapSet_iff {α : Type} {m : List (String × α)} {k k' : String} {v v' : α} :
    (k', v') ∈ mapSet m k v ↔ (k' = k ∧ v' = v) ∨ ((k', v') ∈ m ∧ k' ≠ k) := by
  unfold mapSet
  by_cases h : (m.find? (fun p => p.1 == k)).isSome
  · rw [if_pos h]
    constructor
    · intro hmem
      rcases List.mem_map.mp hmem with ⟨p, hp, hpe⟩
      by_cases hpk : p.1 == k
      · rw [if_pos hpk] at hpe
        injection hpe with h1 h2
        exact Or.inl ⟨h1.symm, h2.symm⟩
      · rw [if_neg hpk] at hpe
        subst hpe
        refine Or.inr ⟨hp, ?_⟩
        simpa using hpk
    · intro hmem
      rcases hmem with ⟨hk, hv⟩ | ⟨hmem, hne⟩
      · rcases Option.isSome_iff_exists.mp h with ⟨p, hp⟩
        have hpred := List.find?_some hp
        have hpmem := List.mem_of_find?_eq_some hp
        refine List.mem_map.mpr ⟨p, hpmem, ?_⟩
        rw [if_pos hpred, hk, hv]
      · refine List.mem_map.mpr ⟨(k', v'), hmem, ?_⟩
        rw [if_neg (by simpa using hne)]
  · rw [if_neg h]
    rw [List.mem_append, List.mem_singleton]
    have hnone : mapGet m k = none := by
      unfold mapGet
      rw [Option.not_isSome_iff_eq_none.mp h]
      rfl
    constructor
    · intro hmem
      rcases hmem with hmem | hmem
      · refine Or.inr ⟨hmem, ?_⟩
        intro hk
        exact not_mem_of_mapGet_eq_none hnone (hk ▸ hmem)
      · injection hmem with h1 h2
        exact Or.inl ⟨h1, h2⟩
    · intro hmem
      rcases hmem with ⟨hk, hv⟩ | ⟨hmem, _⟩
      · right
        rw [hk, hv]
      · left
        exact hmem

/-- Writing an existing key leaves the key list unchanged. -/
theorem mapSet_keys_of_present {α : Type} {m : List (String × α)} {k : String} {v : α}
    (h : (m.find? (fun p => p.1 == k)).isSome) :
    (mapSet m k v).map Prod.fst = m.map Prod.fst := by
  unfold mapSet
  rw [if_pos h, List.map_map]
  apply List.map_congr_left
  intro p _
  by_cases hp : p.1 == k
  · simp only [Function.comp_apply, if_pos hp]
    have : p.1 = k := by simpa using hp
    rw [this]
  · simp only [Function.comp_apply, if_neg hp]

/-- Writing a fresh key appends it to the key list. -/
theorem mapSet_keys_of_absent {α : Type} {m : List (String × α)} {k : String} {v : α}
    (h : ¬ (m.find? (fun p => p.1 == k)).isSome) :
    (mapSet m k v).map Prod.fst = m.map Prod.fst ++ [k] := by
  unfold mapSet
  rw [if_neg h, List.map_append]
  rfl

/-- Membership in `mapDelete`: the surviving entries with a different key. -/
theorem mem_mapDelete_iff {α : Type} {m : List (String × α)} {k k' : String} {v' : α} :
    (k', v') ∈ mapDelete m k ↔ (k', v') ∈ m ∧ k' ≠ k := by
  unfold mapDelete
  rw [List.mem_filter]
  constructor
  · intro ⟨h1, h2⟩
    refine ⟨h1, ?_⟩
    intro hk
    simp only [hk] at h2
    simp at h2
  · intro ⟨h1, h2⟩
    refine ⟨h1, ?_⟩
    simpa using h2

/-- `mapDelete` keeps the key list duplicate-free. -/
theorem mapDelete_keys_nodup {α : Type} {m : List (String × α)} {k : String}
    (hnd : (m.map Prod.fst).Nodup) : ((mapDelete m k).map Prod.fst).Nodup :=
  List.Nodup.sublist (List.Sublist.map Prod.fst (List.filter_sublist m)) hnd

/-- Membership in `setAdd`. -/
theorem mem_setAdd_iff {s : List String} {c x : String} :
    x ∈ setAdd s c ↔ x ∈ s ∨ x = c := by
  unfold setAdd
  by_cases h : c ∈ s
  · rw [if_pos h]
    constructor
    · exact Or.inl
    · intro hx
      rcases hx with hx | hx
      · exact hx
      · exact hx ▸ h
  · rw [if_neg h]
    simp

/-- `setAdd` keeps the set duplicate-free. -/
theorem setAdd_nodup {s : List String} {c : String} (hnd : s.Nodup) : (setAdd s c).Nodup := by
  unfold setAdd
  by_cases h : c ∈ s
  · rw [if_pos h]
    exact hnd
  · rw [if_neg h]
    simpa [List.nodup_append] using ⟨hnd, h⟩

/-- `setAdd` never yields the empty set. -/
theorem setAdd_ne_nil {s : List String} {c : String} : setAdd s c ≠ [] := by
  unfold setAdd
  by_cases h : c ∈ s
  · rw [if_pos h]
    intro hnil
    rw [hnil] at h
    cases h
  · rw [if_neg h]
    simp

/-- Membership in `setDelete`. -/
theorem mem_setDelete_iff {s : List String} {c x : String} :
    x ∈ setDelete s c ↔ x ∈ s ∧ x ≠ c := by
  unfold setDelete
  rw [List.mem_filter]
  simp

/-- `setDelete` keeps the set duplicate-free. -/
theorem setDelete_nodup {s : List String} {c : String} (hnd : s.Nodup) :
    (setDelete s c).Nodup :=
  List.Nodup.sublist (List.filter_sublist s) hnd

end HoroHouse

namespace HoroHouse

/-- `mapGet` skips a prefix without the key. -/
theorem mapGet_append_of_none {α : Type} {m : List (String × α)} {k : String}
    (l : List (String × α)) (h : mapGet m k = none) :
    mapGet (m ++ l) k = mapGet l k := by
  induction m with
  | nil => rfl
  | cons q t ih =>
    rw [mapGet_cons] at h
    by_cases hq : q.1 == k
    · rw [if_pos hq] at h
      cases h
    · rw [if_neg hq] at h
      rw [List.cons_append, mapGet_cons, if_neg hq]
      exact ih h

/-- Writing a fresh key makes it readable. -/
theorem mapGet_mapSet_absent {α : Type} {m : List (String × α)} {k : String} (v : α)
    (h : mapGet m k = none) : mapGet (mapSet m k v) k = some v := by
  have hfind : m.find? (fun p => p.1 == k) = none := by
    unfold mapGet at h
    exact Option.map_eq_none'.mp h
  unfold mapSet
  rw [if_neg (by rw [hfind]; simp)]
  rw [mapGet_append_of_none _ h]
  simp [mapGet_cons]

/-- Shape of `handleConnection` when the user already has a socket set. -/
theorem handleConnection_eq_present (st : Registry) (u c : String) (conns0 : List String)
    (h : mapGet st.userSockets u = some conns0) :
    handleConnection st u c =
      { userSockets := mapSet st.userSockets u (setAdd conns0 c),
        socketToUser := mapSet st.socketToUser c u } := by
  unfold handleConnection
  dsimp only
  rw [h]
  rw [if_pos (show (some conns0).isSome = true from rfl)]
  rw [h]
  rfl

/-- Shape of `handleConnection` when the user had no socket set. -/
theorem handleConnection_eq_absent (st : Registry) (u c : String)
    (h : mapGet st.userSockets u = none) :
    handleConnection st u c =
      { userSockets := mapSet (mapSet st.userSockets u []) u [c],
        socketToUser := mapSet st.socketToUser c u } := by
  unfold handleConnection
  dsimp only
  rw [h]
  rw [if_neg (by simp)]
  rw [mapGet_mapSet_absent [] h]
  rfl

/-- `handleDisconnect` is a no-op for an unregistered socket. -/
theorem handleDisconnect_eq_unregistered (st : Registry) (c : String)
    (h : mapGet st.socketToUser c = none) :
    handleDisconnect st c = st := by
  unfold handleDisconnect
  rw [h]

/-- Shape of `handleDisconnect` when the reverse map knows the socket but the
forward map has no set for its user. -/
theorem handleDisconnect_eq_noset (st : Registry) (c uid : String)
    (h1 : mapGet st.socketToUser c = some uid)
    (h2 : mapGet st.userSockets uid = none) :
    handleDisconnect st c = { st with socketToUser := mapDelete st.socketToUser c } := by
  unfold handleDisconnect
  rw [h1]
  dsimp only
  rw [h2]

/-- Shape of `handleDisconnect` when removing the socket empties its user's
set. -/
theorem handleDisconnect_eq_last (st : Registry) (c uid : String) (conns : List String)
    (h1 : mapGet st.socketToUser c = some uid)
    (h2 : mapGet st.userSockets uid = some conns)
    (h3 : setDelete conns c = []) :
    handleDisconnect st c =
      { userSockets := mapDelete st.userSockets uid,
        socketToUser := mapDelete st.socketToUser c } := by
  unfold handleDisconnect
  rw [h1]
  dsimp only
  rw [h2]
  dsimp only
  rw [h3]
  rw [if_pos (show ([] : List String).length = 0 from rfl)]

/-- Shape of `handleDisconnect` when the user keeps other sockets. -/
theorem handleDisconnect_eq_keep (st : Registry) (c uid : String) (conns : List String)
    (h1 : mapGet st.socketToUser c = some uid)
    (h2 : mapGet st.userSockets uid = some conns)
    (h3 : setDelete conns c ≠ []) :
    handleDisconnect st c =
      { userSockets := mapSet st.userSockets uid (setDelete conns c),
        socketToUser := mapDelete st.socketToUser c } := by
  unfold handleDisconnect
  rw [h1]
  dsimp only
  rw [h2]
  dsimp only
  rw [if_neg (by simpa [List.length_eq_zero] using h3)]

end HoroHouse

namespace HoroHouse

/-- The empty registry satisfies the invariant. -/
theorem registryInv_empty : RegistryInv Registry.empty :=
  ⟨by simp [Registry.empty], by simp [Registry.empty],
   by simp [Registry.empty], by simp [Registry.empty],
   by simp [Registry.empty], by simp [Registry.empty]⟩

/-- A connection event for a not-currently-registered socket preserves the
invariant. -/
theorem registryInv_connect (st : Registry) (userId clientId : String)
    (hinv : RegistryInv st) (hfresh : mapGet st.socketToUser clientId = none) :
    RegistryInv (handleConnection st userId clientId) := by
  have habsR : ¬ (st.socketToUser.find? (fun p => p.1 == clientId)).isSome := by
    unfold mapGet at hfresh
    rw [Option.map_eq_none'.mp hfresh]
    simp
  have hrevkeys : ((mapSet st.socketToUser clientId userId).map Prod.fst).Nodup := by
    rw [mapSet_keys_of_absent habsR]
    exact List.Nodup.append hinv.revKeys (List.nodup_singleton _)
      (by simpa using not_mem_keys_of_mapGet_eq_none hfresh)
  cases hpres : mapGet st.userSockets userId with
  | some conns0 =>
    rw [handleConnection_eq_present st userId clientId conns0 hpres]
    have hc0mem : (userId, conns0) ∈ st.userSockets := mem_of_mapGet_eq_some hpres
    have hfind0 : (st.userSockets.find? (fun p => p.1 == userId)).isSome := by
      unfold mapGet at hpres
      cases hf : st.userSockets.find? (fun p => p.1 == userId) with
      | none => rw [hf] at hpres; cases hpres
      | some p => simp
    refine ⟨?_, hrevkeys, ?_, ?_, ?_, ?_⟩
    · rw [mapSet_keys_of_present hfind0]
      exact hinv.fwdKeys
    · intro u conns hmem
      rcases mem_mapSet_iff.mp hmem with ⟨hu, hc⟩ | ⟨hmem', _⟩
      · rw [hc]
        exact setAdd_nodup (hinv.connsNodup _ _ hc0mem)
      · exact hinv.connsNodup _ _ hmem'
    · intro u conns hmem
      rcases mem_mapSet_iff.mp hmem with ⟨hu, hc⟩ | ⟨hmem', _⟩
      · rw [hc]
        exact setAdd_ne_nil
      · exact hinv.connsNonempty _ _ hmem'
    · intro u conns c hmem hc
      rcases mem_mapSet_iff.mp hmem with ⟨hu, hcs⟩ | ⟨hmem', _⟩
      · subst hu
        rw [hcs] at hc
        rcases mem_setAdd_iff.mp hc with hcc | hcc
        · have hR := hinv.fwdRev _ _ _ hc0mem hcc
          have hnecl : c ≠ clientId := fun he => not_mem_of_mapGet_eq_none hfresh (he ▸ hR)
          exact mem_mapSet_iff.mpr (Or.inr ⟨hR, hnecl⟩)
        · subst hcc
          exact mem_mapSet_iff.mpr (Or.inl ⟨rfl, rfl⟩)
      · have hR := hinv.fwdRev _ _ _ hmem' hc
        have hnecl : c ≠ clientId := fun he => not_mem_of_mapGet_eq_none hfresh (he ▸ hR)
        exact mem_mapSet_iff.mpr (Or.inr ⟨hR, hnecl⟩)
    · intro c u hmem
      rcases mem_mapSet_iff.mp hmem with ⟨hc, hu⟩ | ⟨hmem', _⟩
      · rw [hc, hu]
        refine ⟨setAdd conns0 clientId, mem_mapSet_iff.mpr (Or.inl ⟨rfl, rfl⟩), ?_⟩
        exact mem_setAdd_iff.mpr (Or.inr rfl)
      · obtain ⟨cs, hcs, hccs⟩ := hinv.revFwd _ _ hmem'
        by_cases huid : u = userId
        · subst huid
          have hcseq : cs = conns0 := by
            have := mapGet_eq_some_of_mem hinv.fwdKeys hcs
            rw [hpres] at this
            injection this with he
            exact he.symm
          refine ⟨setAdd conns0 clientId, mem_mapSet_iff.mpr (Or.inl ⟨rfl, rfl⟩), ?_⟩
          exact mem_setAdd_iff.mpr (Or.inl (hcseq ▸ hccs))
        · exact ⟨cs, mem_mapSet_iff.mpr (Or.inr ⟨hcs, huid⟩), hccs⟩
  | none =>
    rw [handleConnection_eq_absent st userId clientId hpres]
    have habsF : ¬ (st.userSockets.find? (fun p => p.1 == userId)).isSome := by
      unfold mapGet at hpres
      rw [Option.map_eq_none'.mp hpres]
      simp
    have hF1keys : (mapSet st.userSockets userId ([] : List String)).map Prod.fst
        = st.userSockets.map Prod.fst ++ [userId] := mapSet_keys_of_absent habsF
    have hF1nodup : ((mapSet st.userSockets userId ([] : List String)).map Prod.fst).Nodup := by
      rw [hF1keys]
      exact List.Nodup.append hinv.fwdKeys (List.nodup_singleton _)
        (by simpa using not_mem_keys_of_mapGet_eq_none hpres)
    have hpresF1 : ((mapSet st.userSockets userId ([] : List String)).find?
        (fun p => p.1 == userId)).isSome := by
      have hg := mapGet_mapSet_absent ([] : List String) hpres
      unfold mapGet at hg
      cases hf : (mapSet st.userSockets userId ([] : List String)).find?
          (fun p => p.1 == userId) with
      | none => rw [hf] at hg; cases hg
      | some p => simp
    have hmemF1 : ∀ u (conns : List String), (u, conns) ∈ mapSet st.userSockets userId [] →
        u ≠ userId → (u, conns) ∈ st.userSockets := by
      intro u conns hmem hne
      rcases mem_mapSet_iff.mp hmem with ⟨hu, _⟩ | ⟨hmem', _⟩
      · exact absurd hu hne
      · exact hmem'
    refine ⟨?_, hrevkeys, ?_, ?_, ?_, ?_⟩
    · rw [mapSet_keys_of_present hpresF1]
      exact hF1nodup
    · intro u conns hmem
      rcases mem_mapSet_iff.mp hmem with ⟨hu, hc⟩ | ⟨hmem', hne⟩
      · rw [hc]
        exact List.nodup_singleton _
      · exact hinv.connsNodup _ _ (hmemF1 _ _ hmem' hne)
    · intro u conns hmem
      rcases mem_mapSet_iff.mp hmem with ⟨hu, hc⟩ | ⟨hmem', hne⟩
      · rw [hc]
        simp
      · exact hinv.connsNonempty _ _ (hmemF1 _ _ hmem' hne)
    · intro u conns c hmem hc
      rcases mem_mapSet_iff.mp hmem with ⟨hu, hcs⟩ | ⟨hmem', hne⟩
      · subst hu
        rw [hcs] at hc
        rw [List.mem_singleton.mp hc]
        exact mem_mapSet_iff.mpr (Or.inl ⟨rfl, rfl⟩)
      · have hR := hinv.fwdRev _ _ _ (hmemF1 _ _ hmem' hne) hc
        have hnecl : c ≠ clientId := fun he => not_mem_of_mapGet_eq_none hfresh (he ▸ hR)
        exact mem_mapSet_iff.mpr (Or.inr ⟨hR, hnecl⟩)
    · intro c u hmem
      rcases mem_mapSet_iff.mp hmem with ⟨hc, hu⟩ | ⟨hmem', _⟩
      · rw [hc, hu]
        exact ⟨[clientId], mem_mapSet_iff.mpr (Or.inl ⟨rfl, rfl⟩), List.mem_singleton.mpr rfl⟩
      · obtain ⟨cs, hcs, hccs⟩ := hinv.revFwd _ _ hmem'
        have hneu : u ≠ userId := by
          intro he
          exact not_mem_of_mapGet_eq_none hpres (he ▸ hcs)
        refine ⟨cs, mem_mapSet_iff.mpr (Or.inr ⟨?_, hneu⟩), hccs⟩
        exact mem_mapSet_iff.mpr (Or.inr ⟨hcs, hneu⟩)

/-- A disconnection event preserves the invariant. -/
theorem registryInv_disconnect (st : Registry) (clientId : String)
    (hinv : RegistryInv st) : RegistryInv (handleDisconnect st clientId) := by
  cases hrev : mapGet st.socketToUser clientId with
  | none =>
    rw [handleDisconnect_eq_unregistered st clientId hrev]
    exact hinv
  | some uid =>
    cases hfwd : mapGet st.userSockets uid with
    | none =>
      rw [handleDisconnect_eq_noset st clientId uid hrev hfwd]
      refine ⟨hinv.fwdKeys, mapDelete_keys_nodup hinv.revKeys,
        hinv.connsNodup, hinv.connsNonempty, ?_, ?_⟩
      · intro u conns c hmem hc
        have hR := hinv.fwdRev _ _ _ hmem hc
        refine mem_mapDelete_iff.mpr ⟨hR, ?_⟩
        intro he
        subst he
        have hsome := mapGet_eq_some_of_mem hinv.revKeys hR
        rw [hrev] at hsome
        injection hsome with hu
        exact not_mem_of_mapGet_eq_none hfwd ((hu.symm : u = uid) ▸ hmem)
      · intro c u hmem
        exact hinv.revFwd _ _ (mem_mapDelete_iff.mp hmem).1
    | some conns =>
      have hmemuid : (uid, conns) ∈ st.userSockets := mem_of_mapGet_eq_some hfwd
      by_cases hdel : setDelete conns clientId = []
      · rw [handleDisconnect_eq_last st clientId uid conns hrev hfwd hdel]
        refine ⟨mapDelete_keys_nodup hinv.fwdKeys, mapDelete_keys_nodup hinv.revKeys,
          ?_, ?_, ?_, ?_⟩
        · intro u cs hmem
          exact hinv.connsNodup _ _ (mem_mapDelete_iff.mp hmem).1
        · intro u cs hmem
          exact hinv.connsNonempty _ _ (mem_mapDelete_iff.mp hmem).1
        · intro u cs c hmem hc
          obtain ⟨hmem', hneu⟩ := mem_mapDelete_iff.mp hmem
          have hR := hinv.fwdRev _ _ _ hmem' hc
          refine mem_mapDelete_iff.mpr ⟨hR, ?_⟩
          intro he
          subst he
          have hsome := mapGet_eq_some_of_mem hinv.revKeys hR
          rw [hrev] at hsome
          injection hsome with hu
          exact hneu hu.symm
        · intro c u hmem
          obtain ⟨hR, hnec⟩ := mem_mapDelete_iff.mp hmem
          obtain ⟨cs, hcs, hccs⟩ := hinv.revFwd _ _ hR
          have hneu : u ≠ uid := by
            intro he
            subst he
            have hsome := mapGet_eq_some_of_mem hinv.fwdKeys hcs
            rw [hfwd] at hsome
            injection hsome with hcseq
            have hmem2 : c ∈ setDelete conns clientId :=
              mem_setDelete_iff.mpr ⟨by rw [hcseq]; exact hccs, hnec⟩
            rw [hdel] at hmem2
            cases hmem2
          exact ⟨cs, mem_mapDelete_iff.mpr ⟨hcs, hneu⟩, hccs⟩
      · rw [handleDisconnect_eq_keep st clientId uid conns hrev hfwd hdel]
        have hfinduid : (st.userSockets.find? (fun p => p.1 == uid)).isSome := by
          unfold mapGet at hfwd
          cases hf : st.userSockets.find? (fun p => p.1 == uid) with
          | none => rw [hf] at hfwd; cases hfwd
          | some p => simp
        refine ⟨?_, mapDelete_keys_nodup hinv.revKeys, ?_, ?_, ?_, ?_⟩
        · rw [mapSet_keys_of_present hfinduid]
          exact hinv.fwdKeys
        · intro u cs hmem
          rcases mem_mapSet_iff.mp hmem with ⟨_, hcs⟩ | ⟨hmem', _⟩
          · rw [hcs]
            exact setDelete_nodup (hinv.connsNodup _ _ hmemuid)
          · exact hinv.connsNodup _ _ hmem'
        · intro u cs hmem
          rcases mem_mapSet_iff.mp hmem with ⟨_, hcs⟩ | ⟨hmem', _⟩
          · rw [hcs]
            exact hdel
          · exact hinv.connsNonempty _ _ hmem'
        · intro u cs c hmem hc
          rcases mem_mapSet_iff.mp hmem with ⟨hu, hcs⟩ | ⟨hmem', hneu⟩
          · subst hu
            rw [hcs] at hc
            obtain ⟨hcc, hncc⟩ := mem_setDelete_iff.mp hc
            exact mem_mapDelete_iff.mpr ⟨hinv.fwdRev _ _ _ hmemuid hcc, hncc⟩
          · have hR := hinv.fwdRev _ _ _ hmem' hc
            refine mem_mapDelete_iff.mpr ⟨hR, ?_⟩
            intro he
            subst he
            have hsome := mapGet_eq_some_of_mem hinv.revKeys hR
            rw [hrev] at hsome
            injection hsome with hu
            exact hneu hu.symm
        · intro c u hmem
          obtain ⟨hR, hnec⟩ := mem_mapDelete_iff.mp hmem
          obtain ⟨cs, hcs, hccs⟩ := hinv.revFwd _ _ hR
          by_cases hu : u = uid
          · subst hu
            have hsome := mapGet_eq_some_of_mem hinv.fwdKeys hcs
            rw [hfwd] at hsome
            injection hsome with hcseq
            refine ⟨setDelete conns clientId, mem_mapSet_iff.mpr (Or.inl ⟨rfl, rfl⟩), ?_⟩
            exact mem_setDelete_iff.mpr ⟨by rw [hcseq]; exact hccs, hnec⟩
          · exact ⟨cs, mem_mapSet_iff.mpr (Or.inr ⟨hcs, hu⟩), hccs⟩

/-- Every reachable registry state satisfies the invariant. -/
theorem registryInv_reachable (st : Registry) (h : RegistryReachable st) : RegistryInv st := by
  unfold RegistryReachable at h
  induction h with
  | refl => exact registryInv_empty
  | tail hsteps hstep ih =>
    cases hstep with
    | connect userId clientId hfresh => exact registryInv_connect _ _ _ ih hfresh
    | disconnect clientId => exact registryInv_disconnect _ _ ih

/-- With duplicate-free keys, an association list holds exactly one entry for
a stored key. -/
theorem assoc_filter_length_one {α : Type} (m : List (String × α)) (c : String) (v : α)
    (hnd : (m.map Prod.fst).Nodup) (hm : (c, v) ∈ m) :
    (m.filter (fun p => p.1 = c)).length = 1 := by
  induction m with
  | nil => cases hm
  | cons p t ih =>
    rw [List.map_cons] at hnd
    by_cases hp : p.1 = c
    · have hrest : t.filter (fun q => q.1 = c) = [] := by
        rw [List.filter_eq_nil_iff]
        intro q hq
        simp only [decide_eq_true_eq]
        intro hqc
        exact (List.nodup_cons.mp hnd).1
          (List.mem_map.mpr ⟨q, hq, by rw [hqc, ← hp]⟩)
      rw [List.filter_cons, if_pos (by simpa using hp), hrest]
      rfl
    · have hmt : (c, v) ∈ t := by
        rcases List.mem_cons.mp hm with h1 | h1
        · exact absurd (by rw [← h1] : p.1 = c) hp
        · exact h1
      rw [List.filter_cons, if_neg (by simpa using hp)]
      exact ih (List.nodup_cons.mp hnd).2 hmt

end HoroHouse

namespace HoroHouse

/-- Claim C5: in every registry state reachable by register/unregister
events, the forward and reverse presence maps are mutually consistent: every
connection id in some identity's set has exactly one reverse-map entry, and
it points to that identity; and every reverse-map entry's connection id lies
in exactly that identity's set. -/
theorem presence_maps_mutually_consistent (st : Registry) (h : RegistryReachable st) :
    (∀ u conns c, (u, conns) ∈ st.userSockets → c ∈ conns →
        (st.socketToUser.filter (fun p => p.1 = c)).length = 1 ∧
          (c, u) ∈ st.socketToUser) ∧
    (∀ c u, (c, u) ∈ st.socketToUser →
        ∃ conns, (u, conns) ∈ st.userSockets ∧ c ∈ conns ∧
          ∀ u' conns', (u', conns') ∈ st.userSockets → c ∈ conns' → u' = u) := by
  have hinv := registryInv_reachable st h
  constructor
  · intro u conns c hmem hc
    have hR := hinv.fwdRev _ _ _ hmem hc
    exact ⟨assoc_filter_length_one _ _ _ hinv.revKeys hR, hR⟩
  · intro c u hmem
    obtain ⟨conns, hcs, hccs⟩ := hinv.revFwd _ _ hmem
    refine ⟨conns, hcs, hccs, ?_⟩
    intro u' conns' hmem' hc'
    have hR' := hinv.fwdRev _ _ _ hmem' hc'
    have h1 := mapGet_eq_some_of_mem hinv.revKeys hR'
    have h2 := mapGet_eq_some_of_mem hinv.revKeys hmem
    rw [h2] at h1
    injection h1 with he
    exact he.symm

/-- Witness for C5 at the reachable state with one registered connection. -/
theorem presence_maps_mutually_consistent_witness :
    (∀ u conns c, (u, conns) ∈ (handleConnection Registry.empty "u1" "c1").userSockets →
        c ∈ conns →
        ((handleConnection Registry.empty "u1" "c1").socketToUser.filter
            (fun p => p.1 = c)).length = 1 ∧
          (c, u) ∈ (handleConnection Registry.empty "u1" "c1").socketToUser) ∧
    (∀ c u, (c, u) ∈ (handleConnection Registry.empty "u1" "c1").socketToUser →
        ∃ conns, (u, conns) ∈ (handleConnection Registry.empty "u1" "c1").userSockets ∧
          c ∈ conns ∧
          ∀ u' conns',
            (u', conns') ∈ (handleConnection Registry.empty "u1" "c1").userSockets →
            c ∈ conns' → u' = u) :=
  presence_maps_mutually_consistent _
    (Relation.ReflTransGen.tail Relation.ReflTransGen.refl
      (RegistryStep.connect Registry.empty "u1" "c1" rfl))

end HoroHouse

namespace HoroHouse

/-- Claim C6: starting with no presence, registering two distinct connections
for an identity and unregistering one leaves it online with connection count
1; unregistering the second leaves it offline and absent from the connected
identity ids. -/
theorem presence_two_connections_lifecycle (u c1 c2 : String) (hne : c1 ≠ c2) :
    isUserConnected
        (handleDisconnect
          (handleConnection (handleConnection Registry.empty u c1) u c2) c1) u = true ∧
    getUserConnectionCount
        (handleDisconnect
          (handleConnection (handleConnection Registry.empty u c1) u c2) c1) u = 1 ∧
    isUserConnected
        (handleDisconnect
          (handleDisconnect
            (handleConnection (handleConnection Registry.empty u c1) u c2) c1) c2) u = false ∧
    u ∉ getConnectedUserIds
        (handleDisconnect
          (handleDisconnect
            (handleConnection (handleConnection Registry.empty u c1) u c2) c1) c2) := by
  have h1 : handleConnection Registry.empty u c1
      = { userSockets := [(u, [c1])], socketToUser := [(c1, u)] } := by
    rw [handleConnection_eq_absent Registry.empty u c1 rfl]
    simp [mapSet, setAdd, Registry.empty]
  have h2 : handleConnection { userSockets := [(u, [c1])], socketToUser := [(c1, u)] } u c2
      = { userSockets := [(u, [c1, c2])], socketToUser := [(c1, u), (c2, u)] } := by
    rw [handleConnection_eq_present _ _ _ [c1] (by simp [mapGet])]
    simp [mapSet, setAdd, mapGet, hne, Ne.symm hne]
  have h3 : handleDisconnect
        { userSockets := [(u, [c1, c2])], socketToUser := [(c1, u), (c2, u)] } c1
      = { userSockets := [(u, [c2])], socketToUser := [(c2, u)] } := by
    rw [handleDisconnect_eq_keep _ _ u [c1, c2] (by simp [mapGet]) (by simp [mapGet])
      (by simp [setDelete, Ne.symm hne])]
    simp [mapSet, setDelete, mapDelete, mapGet, hne, Ne.symm hne]
  have h4 : handleDisconnect { userSockets := [(u, [c2])], socketToUser := [(c2, u)] } c2
      = { userSockets := [], socketToUser := [] } := by
    rw [handleDisconnect_eq_last _ _ u [c2] (by simp [mapGet]) (by simp [mapGet])
      (by simp [setDelete])]
    simp [mapDelete]
  rw [h1, h2, h3, h4]
  refine ⟨?_, ?_, ?_, ?_⟩
  · simp [isUserConnected, mapGet]
  · simp [getUserConnectionCount, mapGet]
  · simp [isUserConnected, mapGet]
  · simp [getConnectedUserIds]

/-- Witness for C6 at concrete identity and connection ids. -/
theorem presence_two_connections_lifecycle_witness :
    isUserConnected
        (handleDisconnect
          (handleConnection (handleConnection Registry.empty "u1" "c1") "u1" "c2") "c1") "u1"
      = true ∧
    getUserConnectionCount
        (handleDisconnect
          (handleConnection (handleConnection Registry.empty "u1" "c1") "u1" "c2") "c1") "u1"
      = 1 ∧
    isUserConnected
        (handleDisconnect
          (handleDisconnect
            (handleConnection (handleConnection Registry.empty "u1" "c1") "u1" "c2") "c1") "c2")
        "u1" = false ∧
    "u1" ∉ getConnectedUserIds
        (handleDisconnect
          (handleDisconnect
            (handleConnection (handleConnection Registry.empty "u1" "c1") "u1" "c2") "c1") "c2") :=
  presence_two_connections_lifecycle "u1" "c1" "c2" (by decide)

end HoroHouse
